import Mathlib

/-!
# vtkDICOMMetaDataAdapter: attribute resolution over functional groups

A shallow embedding of `Source/vtkDICOMMetaDataAdapter.cxx`.  The adapter
gives a frame-indexed view of a DICOM meta data store: for enhanced
multi-frame files the attributes of a frame are searched in the
PerFrameFunctionalGroupsSequence, then in the SharedFunctionalGroupsSequence,
then in the store itself.

Pointers are embedded as `Option` (`none` is the null pointer), and a
function that dereferences a null pointer returns `none`.  The `int` frame
index is an `Int`; its conversion to `unsigned int` is written out as a
reduction modulo `2 ^ 32`, and its sum with `MetaInstance` as the 32-bit sum
`addInt32`.
-/

namespace vtkDICOM

/-- A `vtkDICOMTag`: a (group, element) pair of 16-bit numbers. -/
structure Tag where
  group : Nat
  element : Nat
  deriving DecidableEq, Repr

/-- The tag `vtkDICOMTag(0xFFFF, 0xFFFF)` that the code uses for "not resolved". -/
def Tag.unresolved : Tag := ⟨0xFFFF, 0xFFFF⟩

/-- The expression `(tag.GetGroup() & 1) == 0` of the source: an even group. -/
def Tag.isPublic (t : Tag) : Bool := t.group % 2 == 0

namespace DC

/-- Dictionary constant `DC::NumberOfFrames`, (0028,0008); the dictionary
header is not among the sources, the number is the one of the DICOM standard. -/
def NumberOfFrames : Tag := ⟨0x0028, 0x0008⟩

/-- Dictionary constant `DC::SharedFunctionalGroupsSequence`, (5200,9229). -/
def SharedFunctionalGroupsSequence : Tag := ⟨0x5200, 0x9229⟩

/-- Dictionary constant `DC::PerFrameFunctionalGroupsSequence`, (5200,9230). -/
def PerFrameFunctionalGroupsSequence : Tag := ⟨0x5200, 0x9230⟩

end DC

mutual

/-- Modelled from the spec: the Value collaborator (`vtkDICOMValue`, whose
header is not among the sources), a closed variant "invalid | scalar-like
payload | sequence of Items".  The payload is kept as a list of integers,
one per repeated value. -/
inductive Value where
  | invalid : Value
  | data (vals : List Int) : Value
  | seq (items : List Item) : Value

/-- Modelled from the spec: the Item collaborator (`vtkDICOMItem`), an
ordered sequence of data elements. -/
inductive Item where
  | mk (elements : List DataElement) : Item

/-- Modelled from the spec: one (elementTag, elementValue) pair of an Item,
what a `vtkDICOMDataElementIterator` over an item points at. -/
inductive DataElement where
  | mk (tag : Tag) (value : Value) : DataElement

end

/-- The method `vtkDICOMDataElement::GetTag`. -/
def DataElement.GetTag : DataElement → Tag
  | .mk t _ => t

/-- The method `vtkDICOMDataElement::GetValue`. -/
def DataElement.GetValue : DataElement → Value
  | .mk _ v => v

/-- The elements between `Begin()` and `End()` of an item, in order. -/
def Item.elements : Item → List DataElement
  | .mk es => es

/-- Modelled from the spec: `Value::IsValid()`. -/
def Value.IsValid : Value → Bool
  | .invalid => false
  | _ => true

/-- Modelled from the spec: `Value::GetCount()` (`GetNumberOfValues` in the
source), the number of repeated values, for a sequence the number of items. -/
def Value.GetNumberOfValues : Value → Nat
  | .invalid => 0
  | .data vals => vals.length
  | .seq items => items.length

/-- Modelled from the spec: `Value::GetItems()` (`GetSequenceData` in the
source): the item array of a sequence, the null pointer for every other
value. -/
def Value.GetSequenceData : Value → Option (List Item)
  | .seq items => some items
  | _ => none

/-- Modelled from the spec: `Value::AsInteger()` (`AsInt` in the source),
the first number of the payload, zero when there is none. -/
def Value.AsInt : Value → Int
  | .data (n :: _) => n
  | _ => 0

/-- Modelled from the spec: `Item::GetValue(tag)` (`vtkDICOMItem::Get` in the
source), direct lookup in the ordered mapping; an invalid value when the
item has no element with that tag. -/
def Item.Get (it : Item) (tag : Tag) : Value :=
  match it.elements.find? (fun e => e.GetTag == tag) with
  | some e => e.GetValue
  | none => .invalid

/-- A data element of the store as `vtkDICOMMetaData::Find` gives it: one
value for all instances, or one value per instance. -/
inductive MetaElement where
  | single (v : Value) : MetaElement
  | perInstance (vs : Int → Value) : MetaElement

/-- The method `IsPerInstance` of a store data element. -/
def MetaElement.IsPerInstance : MetaElement → Bool
  | .single _ => false
  | .perInstance _ => true

/-- The store collaborator `vtkDICOMMetaData`, by its interface: the
operations the adapter calls on it. -/
structure MetaData where
  /-- Lookup `meta->Get(instance, tag)`. -/
  Get : Int → Tag → Value
  /-- Lookup `meta->ResolvePrivateTag(instance, ptag, creator)`. -/
  ResolvePrivateTag : Int → Tag → String → Tag
  /-- Count `meta->GetNumberOfInstances()`. -/
  GetNumberOfInstances : Int
  /-- Search `meta->Find(tag)`; `none` is `meta->End()`. -/
  Find : Tag → Option MetaElement

/-- The data members of a `vtkDICOMMetaDataAdapter`. -/
structure Adapter where
  Meta : Option MetaData
  PerFrame : Option Value
  Shared : Option Value
  NullValue : Option Value
  NumberOfInstances : Int
  MetaInstance : Int

/-- The conversion `unsigned int f = idx` of a 32-bit `int`. -/
def toUnsigned (idx : Int) : Nat := (idx % 4294967296).toNat

/-- The sum `idx + this->MetaInstance` of two 32-bit `int` values (lines 227
and 327).  Signed overflow is undefined in C++; the two's complement wrap of
the compiled code is what is modelled, so the result is the sum reduced
into the range from -2^31 to 2^31 - 1. -/
def addInt32 (x y : Int) : Int := (x + y + 2147483648) % 4294967296 - 2147483648

/-- How one pass of a search loop ends: by a `return` out of the enclosing
function, or by falling through with the remembered private candidate. -/
inductive Flow (ρ σ : Type) where
  | ret (v : ρ) : Flow ρ σ
  | next (candidate : σ) : Flow ρ σ

/-- The `while (iter != iterEnd)` loop of `Get` (lines 185-211) over the
remaining elements of `items[f]`; `privateValue` is the pointer of line 161. -/
def Get.searchSequences (tag : Tag) :
    List DataElement → Option Value → Flow Value (Option Value)
  | [], privateValue => .next privateValue
  | e :: rest, privateValue =>
    let u := e.GetValue
    if u.GetNumberOfValues = 1 then
      match u.GetSequenceData with
      | some (item :: _) =>
        let w := item.Get tag
        if w.IsValid then
          if e.GetTag.isPublic then .ret w
          else if privateValue.isNone then Get.searchSequences tag rest (some w)
          else Get.searchSequences tag rest privateValue
        else Get.searchSequences tag rest privateValue
      | _ => Get.searchSequences tag rest privateValue
    else Get.searchSequences tag rest privateValue

/-- One pass of the `for (int i = 0; i < 2; i++)` loop of `Get` (lines
164-212) for the sequence `seq` and the index `f`.  The outer `none` is the
dereference of a null `items` pointer. -/
def Get.searchGroup (seq : Option Value) (f : Nat) (tag : Tag)
    (privateValue : Option Value) : Option (Flow Value (Option Value)) :=
  match seq with
  | none => some (.next privateValue)
  | some s =>
    if f < s.GetNumberOfValues then
      match s.GetSequenceData with
      | none => none
      | some items =>
        match items[f]? with
        | none => none
        | some it =>
          let v := it.Get tag
          if v.IsValid then some (.ret v)
          else some (Get.searchSequences tag it.elements privateValue)
    else some (.next privateValue)

/-- The method `vtkDICOMMetaDataAdapter::Get(int idx, vtkDICOMTag tag)`.
The result `none` is a null pointer dereference. -/
def Adapter.Get (a : Adapter) (idx : Int) (tag : Tag) : Option Value :=
  match a.PerFrame with
  | some perFrame =>
    if tag = DC.NumberOfFrames then a.NullValue
    else
      match Get.searchGroup (some perFrame) (toUnsigned idx) tag none with
      | none => none
      | some (.ret v) => some v
      | some (.next pv1) =>
        match Get.searchGroup a.Shared 0 tag pv1 with
        | none => none
        | some (.ret v) => some v
        | some (.next privateValue) =>
          match a.Meta with
          | none => none
          | some m =>
            let v := m.Get a.MetaInstance tag
            match privateValue with
            | some p => if !v.IsValid then some p else some v
            | none => some v
  | none =>
    match a.Meta with
    | none => none
    | some m => some (m.Get (addInt32 idx a.MetaInstance) tag)

/-- The method `vtkDICOMMetaDataAdapter::Has(vtkDICOMTag tag)`. -/
def Adapter.Has (a : Adapter) (tag : Tag) : Option Bool :=
  (a.Get 0 tag).map Value.IsValid

/-- The `while (iter != iterEnd)` loop of `ResolvePrivateTag` (lines 281-312)
over the remaining elements of `items[f]`; `tagFromPrivSeq` is the variable
of line 253.  `resolve` is `vtkDICOMItem::ResolvePrivateTag`, a method of
the Item collaborator that is not among the sources. -/
def ResolvePrivateTag.searchSequences (resolve : Item → Tag → String → Tag)
    (ptag : Tag) (creator : String) : List DataElement → Tag → Flow Tag Tag
  | [], tagFromPrivSeq => .next tagFromPrivSeq
  | e :: rest, tagFromPrivSeq =>
    let u := e.GetValue
    if u.GetNumberOfValues = 1 then
      match u.GetSequenceData with
      | some (item :: _) =>
        let tag := resolve item ptag creator
        if tag ≠ Tag.unresolved then
          let v := item.Get tag
          if v.IsValid then
            if e.GetTag.isPublic then .ret tag
            else if tagFromPrivSeq = Tag.unresolved then
              ResolvePrivateTag.searchSequences resolve ptag creator rest tag
            else ResolvePrivateTag.searchSequences resolve ptag creator rest tagFromPrivSeq
          else ResolvePrivateTag.searchSequences resolve ptag creator rest tagFromPrivSeq
        else ResolvePrivateTag.searchSequences resolve ptag creator rest tagFromPrivSeq
      | _ => ResolvePrivateTag.searchSequences resolve ptag creator rest tagFromPrivSeq
    else ResolvePrivateTag.searchSequences resolve ptag creator rest tagFromPrivSeq

/-- One pass of the `for (int i = 0; i < 2; i++)` loop of `ResolvePrivateTag`
(lines 256-313) for the sequence `seq` and the index `f`.  The outer `none`
is the dereference of a null `items` pointer. -/
def ResolvePrivateTag.searchGroup (resolve : Item → Tag → String → Tag)
    (seq : Option Value) (f : Nat) (ptag : Tag) (creator : String)
    (tagFromPrivSeq : Tag) : Option (Flow Tag Tag) :=
  match seq with
  | none => some (.next tagFromPrivSeq)
  | some s =>
    if f < s.GetNumberOfValues then
      match s.GetSequenceData with
      | none => none
      | some items =>
        match items[f]? with
        | none => none
        | some it =>
          let tag := resolve it ptag creator
          if tag ≠ Tag.unresolved ∧ (it.Get tag).IsValid then some (.ret tag)
          else some (ResolvePrivateTag.searchSequences resolve ptag creator
            it.elements tagFromPrivSeq)
    else some (.next tagFromPrivSeq)

/-- The method `vtkDICOMMetaDataAdapter::ResolvePrivateTag(int idx,
vtkDICOMTag ptag, const std::string& creator)`.  The result `none` is a null
pointer dereference. -/
def Adapter.ResolvePrivateTag (resolve : Item → Tag → String → Tag) (a : Adapter)
    (idx : Int) (ptag : Tag) (creator : String) : Option Tag :=
  match a.PerFrame with
  | some perFrame =>
    match ResolvePrivateTag.searchGroup resolve (some perFrame) (toUnsigned idx)
        ptag creator Tag.unresolved with
    | none => none
    | some (.ret tag) => some tag
    | some (.next t1) =>
      match ResolvePrivateTag.searchGroup resolve a.Shared 0 ptag creator t1 with
      | none => none
      | some (.ret tag) => some tag
      | some (.next tagFromPrivSeq) =>
        match a.Meta with
        | none => none
        | some m =>
          let tag := m.ResolvePrivateTag a.MetaInstance ptag creator
          if tag = Tag.unresolved then some tagFromPrivSeq else some tag
  | none =>
    match a.Meta with
    | none => none
    | some m => some (m.ResolvePrivateTag (addInt32 idx a.MetaInstance) ptag creator)

/-! ## Construction, copy and assignment -/

/-- The value that lines 51-58 (and 63-70) take from a store data element:
`GetValue(MetaInstance)` when the element is per-instance, `GetValue()`
otherwise. -/
def MetaElement.valueAt (e : MetaElement) (instance_ : Int) : Value :=
  match e with
  | .single v => v
  | .perInstance vs => vs instance_

/-- The pointer that lines 48-59 (and 60-71) of `ConstructionHelper` store
for a functional group tag: null when `Find` gives `End()`. -/
def groupValue (m : MetaData) (tag : Tag) (instance_ : Int) : Option Value :=
  match m.Find tag with
  | some e => some (e.valueAt instance_)
  | none => none

/-- The test `p && p->IsValid()` of line 74-75 on a pointer to a value. -/
def validPtr (p : Option Value) : Bool :=
  match p with
  | some v => v.IsValid
  | none => false

/-- The method `vtkDICOMMetaDataAdapter::ConstructionHelper(meta, i)`, as
the members of the constructed object.  With a null `meta` the members keep
the values of lines 37-42 and neither branch of lines 74-87 is taken. -/
def Adapter.ConstructionHelper (meta : Option MetaData) (i : Int) : Adapter :=
  let metaInstance : Int := if i ≥ 0 then i else 0
  match meta with
  | none =>
    { Meta := none, PerFrame := none, Shared := none, NullValue := none,
      NumberOfInstances := 0, MetaInstance := metaInstance }
  | some m =>
    let perFrame := groupValue m DC.PerFrameFunctionalGroupsSequence metaInstance
    let shared := groupValue m DC.SharedFunctionalGroupsSequence metaInstance
    if validPtr shared && validPtr perFrame then
      { Meta := some m, PerFrame := perFrame, Shared := shared,
        NullValue := some Value.invalid,
        NumberOfInstances := (m.Get metaInstance DC.NumberOfFrames).AsInt,
        MetaInstance := metaInstance }
    else
      { Meta := some m, PerFrame := none, Shared := none, NullValue := none,
        NumberOfInstances := if i < 0 then m.GetNumberOfInstances else 1,
        MetaInstance := metaInstance }

/-- The constructor `vtkDICOMMetaDataAdapter(vtkDICOMMetaData *meta)`. -/
def Adapter.construct (meta : Option MetaData) : Adapter :=
  Adapter.ConstructionHelper meta (-1)

/-- The constructor `vtkDICOMMetaDataAdapter(vtkDICOMMetaData *meta, int i)`. -/
def Adapter.constructAt (meta : Option MetaData) (i : Int) : Adapter :=
  Adapter.ConstructionHelper meta i

/-- The copy constructor (lines 92-106), as the members of the new object:
every member is copied and a held `NullValue` is replaced by a newly
allocated invalid value. -/
def Adapter.copyConstruct (other : Adapter) : Adapter :=
  { Meta := other.Meta, PerFrame := other.PerFrame, Shared := other.Shared,
    NullValue := match other.NullValue with
      | some _ => some Value.invalid
      | none => none,
    NumberOfInstances := other.NumberOfInstances, MetaInstance := other.MetaInstance }

/-- The assignment `operator=` (lines 121-143), as the members of `*this`
afterwards; `sameObject` is the outcome of the test `this == &other`. -/
def Adapter.operatorAssign (this other : Adapter) (sameObject : Bool) : Adapter :=
  if sameObject then this
  else
    { Meta := other.Meta, PerFrame := other.PerFrame, Shared := other.Shared,
      NullValue := match other.NullValue with
        | some _ => some Value.invalid
        | none => none,
      NumberOfInstances := other.NumberOfInstances, MetaInstance := other.MetaInstance }

/-- Modelled from the spec: `GetFrameCount()`, the accessor of the member
`NumberOfInstances` (it is declared in the header, which is not among the
sources). -/
def Adapter.GetNumberOfInstances (a : Adapter) : Int := a.NumberOfInstances

/-- The adapters that the two constructors, the copy constructor and the
assignment operator produce. -/
inductive Produced : Adapter → Prop where
  | construct (meta : Option MetaData) : Produced (Adapter.construct meta)
  | constructAt (meta : Option MetaData) (i : Int) : Produced (Adapter.constructAt meta i)
  | copyConstruct (r : Adapter) : Produced r → Produced (Adapter.copyConstruct r)
  | assign (t r : Adapter) : Produced t → Produced r →
      Produced (Adapter.operatorAssign t r false)
  | assignSelf (r : Adapter) : Produced r → Produced (Adapter.operatorAssign r r true)

/-- Both functional group values are found in the store and valid at the
instance `instance_`. -/
def BothGroupsValid (m : MetaData) (instance_ : Int) : Prop :=
  (∃ v, groupValue m DC.SharedFunctionalGroupsSequence instance_ = some v ∧
    v.IsValid = true) ∧
  (∃ v, groupValue m DC.PerFrameFunctionalGroupsSequence instance_ = some v ∧
    v.IsValid = true)

/-! ## Reference counting of the store -/

/-- The state that construction, copying, assignment and destruction act
on: the reference count of each store object, by address, and the member
`Meta` of each live adapter object, by address (`none` is a null `Meta`).
The other members of an adapter do not touch reference counts and are left
out of this state. -/
structure Lifetime where
  refCount : Nat → Int
  held : List (Nat × Option Nat)

/-- Modelled from the spec: `meta->Register(0)`, which increments the
store's shared reference count (`vtkObjectBase`, not among the sources). -/
def Lifetime.Register (s : Lifetime) (store : Nat) : Lifetime :=
  { s with refCount := fun k => if k = store then s.refCount k + 1 else s.refCount k }

/-- Modelled from the spec: `this->Meta->Delete()`, which decrements the
store's shared reference count. -/
def Lifetime.Delete (s : Lifetime) (store : Nat) : Lifetime :=
  { s with refCount := fun k => if k = store then s.refCount k - 1 else s.refCount k }

/-- The effect of `ConstructionHelper` (lines 37 and 44-46) for a new
adapter object at the address `self`: `Meta` is set and a non-null store is
registered.  The result `none` is the use of an address that is taken. -/
def Lifetime.construct (s : Lifetime) (self : Nat) (meta : Option Nat) : Option Lifetime :=
  match s.held.lookup self with
  | some _ => none
  | none =>
    let s1 : Lifetime := { s with held := (self, meta) :: s.held }
    match meta with
    | some store => some (s1.Register store)
    | none => some s1

/-- The effect of the copy constructor (lines 94 and 98-101) for a new
object at `self` copied from the live object at `other`. -/
def Lifetime.copyConstruct (s : Lifetime) (self other : Nat) : Option Lifetime :=
  match s.held.lookup self, s.held.lookup other with
  | none, some otherMeta =>
    let s1 : Lifetime := { s with held := (self, otherMeta) :: s.held }
    match otherMeta with
    | some store => some (s1.Register store)
    | none => some s1
  | _, _ => none

/-- The effect of `operator=` (lines 124-126 and 133-136) on the live
object at `self`, assigned from the live object at `other`: `Meta` is
overwritten with `other.Meta` and a non-null `other.Meta` is registered. -/
def Lifetime.operatorAssign (s : Lifetime) (self other : Nat) : Option Lifetime :=
  match s.held.lookup self, s.held.lookup other with
  | some _, some otherMeta =>
    if self ≠ other then
      let s1 : Lifetime :=
        { s with held := (self, otherMeta) :: s.held.filter (fun e => e.1 != self) }
      match otherMeta with
      | some store => some (s1.Register store)
      | none => some s1
    else some s
  | _, _ => none

/-- The effect of the destructor (lines 112-115) on the live object at
`self`: a non-null `Meta` is released, and the object is gone. -/
def Lifetime.destroy (s : Lifetime) (self : Nat) : Option Lifetime :=
  match s.held.lookup self with
  | none => none
  | some selfMeta =>
    let s1 : Lifetime := { s with held := s.held.filter (fun e => e.1 != self) }
    match selfMeta with
    | some store => some (s1.Delete store)
    | none => some s1

/-- One lifetime operation on adapter objects. -/
inductive LifetimeOp where
  | construct (self : Nat) (meta : Option Nat) : LifetimeOp
  | copyConstruct (self other : Nat) : LifetimeOp
  | operatorAssign (self other : Nat) : LifetimeOp
  | destroy (self : Nat) : LifetimeOp

/-- One step of a sequence of lifetime operations. -/
def Lifetime.step (s : Lifetime) : LifetimeOp → Option Lifetime
  | .construct self meta => s.construct self meta
  | .copyConstruct self other => s.copyConstruct self other
  | .operatorAssign self other => s.operatorAssign self other
  | .destroy self => s.destroy self

/-- A sequence of lifetime operations, from left to right. -/
def Lifetime.run (s : Lifetime) : List LifetimeOp → Option Lifetime
  | [] => some s
  | op :: ops =>
    match s.step op with
    | some s1 => s1.run ops
    | none => none

/-- The number of live adapters that hold the store at the address `store`. -/
def Lifetime.holders (s : Lifetime) (store : Nat) : Nat :=
  (s.held.filter (fun e => e.2 == some store)).length

/-- Balanced reference counting against the initial counts `initial`: each
store's count is its initial count plus the number of live adapters that
hold it. -/
def Lifetime.Balanced (initial : Nat → Int) (s : Lifetime) : Prop :=
  ∀ store, s.refCount store = initial store + s.holders store

/-! ## The precedence list of the specification -/

/-- Per-frame mode with both functional group sequences present: the store,
the PerFrame sequence with items `pf`, the Shared sequence with items `sh`,
and the owned invalid value. -/
structure PerFrameMode (a : Adapter) (m : MetaData) (pf sh : List Item) : Prop where
  hMeta : a.Meta = some m
  hPerFrame : a.PerFrame = some (Value.seq pf)
  hShared : a.Shared = some (Value.seq sh)
  hNullValue : a.NullValue = some Value.invalid

/-- Flat mode: a store and no functional group sequence. -/
structure FlatMode (a : Adapter) (m : MetaData) : Prop where
  hMeta : a.Meta = some m
  hPerFrame : a.PerFrame = none

/-- The first valid value of a list of candidates, `dflt` when none is valid. -/
def firstValid : List Value → Value → Value
  | [], dflt => dflt
  | v :: vs, dflt => if v.IsValid then v else firstValid vs dflt

/-- The value of `tag` inside the single Item of the element `e`; invalid
when `e` is not a sequence of exactly one Item. -/
def nestedValue (e : DataElement) (tag : Tag) : Value :=
  match e.GetValue with
  | .seq [item] => item.Get tag
  | _ => .invalid

/-- The first hit of `tag`, in element order, inside the single Item of a
sequence element of `es` whose group is public (`pub = true`) or private
(`pub = false`); invalid when there is none. -/
def nestedHitIn (pub : Bool) (es : List DataElement) (tag : Tag) : Value :=
  firstValid ((es.filter (fun e => e.GetTag.isPublic == pub)).map
    (fun e => nestedValue e tag)) .invalid

/-- Direct lookup of `tag` in a source item; invalid when there is no item. -/
def directHit (src : Option Item) (tag : Tag) : Value :=
  match src with
  | some it => it.Get tag
  | none => .invalid

/-- The first public-nested (`pub = true`) or private-nested (`pub = false`)
hit of `tag` in a source item; invalid when there is no item. -/
def nestedHit (pub : Bool) (src : Option Item) (tag : Tag) : Value :=
  match src with
  | some it => nestedHitIn pub it.elements tag
  | none => .invalid

/-- The fixed list of the specification for `Get`: the seven places in order
of precedence, for the per-frame item `pfItem`, the shared item `shItem` and
the base store's value `base`; the base lookup itself when none is valid. -/
def Spec.getPrecedence (pfItem shItem : Option Item) (base : Value) (tag : Tag) : Value :=
  firstValid
    [directHit pfItem tag, nestedHit true pfItem tag,
     directHit shItem tag, nestedHit true shItem tag,
     base,
     nestedHit false pfItem tag, nestedHit false shItem tag]
    base

/-- The private candidate after a scan: the one already remembered, else the
first private-nested hit `w` of the scanned item when it is valid. -/
def candidateAfter (pv : Option Value) (w : Value) : Option Value :=
  match pv with
  | some p => some p
  | none => if w.IsValid then some w else none

/-- The outcome of one pass of the search loop of `Get` over a source item,
in the words of the specification: the direct hit, else the first
public-nested hit, else the remembered private candidate. -/
def groupOutcome (src : Option Item) (tag : Tag) (pv : Option Value) :
    Flow Value (Option Value) :=
  if (directHit src tag).IsValid then Flow.ret (directHit src tag)
  else if (nestedHit true src tag).IsValid then Flow.ret (nestedHit true src tag)
  else Flow.next (candidateAfter pv (nestedHit false src tag))

/-- The first resolved tag of a list of candidates, the unresolved sentinel
when there is none. -/
def firstResolved : List Tag → Tag
  | [] => Tag.unresolved
  | t :: ts => if t ≠ Tag.unresolved then t else firstResolved ts

/-- The resolution of (`ptag`, `creator`) inside the item `it`, accepted only
when the same item holds a valid value for the resolved tag; the unresolved
sentinel otherwise. -/
def acceptedIn (resolve : Item → Tag → String → Tag) (it : Item) (ptag : Tag)
    (creator : String) : Tag :=
  if resolve it ptag creator ≠ Tag.unresolved ∧ (it.Get (resolve it ptag creator)).IsValid
  then resolve it ptag creator else Tag.unresolved

/-- The accepted resolution inside the single Item of the element `e`; the
sentinel when `e` is not a sequence of exactly one Item. -/
def nestedResolution (resolve : Item → Tag → String → Tag) (e : DataElement) (ptag : Tag)
    (creator : String) : Tag :=
  match e.GetValue with
  | .seq [item] => acceptedIn resolve item ptag creator
  | _ => Tag.unresolved

/-- The first accepted resolution, in element order, inside the single Item
of a sequence element of `es` whose group is public (`pub = true`) or
private (`pub = false`). -/
def nestedResolvedIn (resolve : Item → Tag → String → Tag) (pub : Bool)
    (es : List DataElement) (ptag : Tag) (creator : String) : Tag :=
  firstResolved ((es.filter (fun e => e.GetTag.isPublic == pub)).map
    (fun e => nestedResolution resolve e ptag creator))

/-- The accepted direct resolution in a source item; the sentinel when there
is no item. -/
def directResolved (resolve : Item → Tag → String → Tag) (src : Option Item) (ptag : Tag)
    (creator : String) : Tag :=
  match src with
  | some it => acceptedIn resolve it ptag creator
  | none => Tag.unresolved

/-- The first accepted public-nested or private-nested resolution in a
source item; the sentinel when there is no item. -/
def nestedResolved (resolve : Item → Tag → String → Tag) (pub : Bool) (src : Option Item)
    (ptag : Tag) (creator : String) : Tag :=
  match src with
  | some it => nestedResolvedIn resolve pub it.elements ptag creator
  | none => Tag.unresolved

/-- The precedence of the specification for `ResolvePrivateTag`: per-frame
direct, per-frame nested public, shared direct, shared nested public, the
base store's resolution `base`, nested private of the per-frame item, nested
private of the shared item, and the sentinel when none is resolved. -/
def Spec.resolvePrecedence (resolve : Item → Tag → String → Tag) (pfItem shItem : Option Item)
    (base : Tag) (ptag : Tag) (creator : String) : Tag :=
  firstResolved
    [directResolved resolve pfItem ptag creator, nestedResolved resolve true pfItem ptag creator,
     directResolved resolve shItem ptag creator, nestedResolved resolve true shItem ptag creator,
     base,
     nestedResolved resolve false pfItem ptag creator,
     nestedResolved resolve false shItem ptag creator]

/-- The private candidate tag after a scan: the one already remembered, else
the first accepted private-nested resolution `t` of the scanned item. -/
def candidateTagAfter (tagFromPrivSeq t : Tag) : Tag :=
  if tagFromPrivSeq = Tag.unresolved then t else tagFromPrivSeq

/-- The outcome of one pass of the search loop of `ResolvePrivateTag` over a
source item, in the words of the specification. -/
def groupResolveOutcome (resolve : Item → Tag → String → Tag) (src : Option Item)
    (ptag : Tag) (creator : String) (tagFromPrivSeq : Tag) : Flow Tag Tag :=
  if directResolved resolve src ptag creator ≠ Tag.unresolved
  then Flow.ret (directResolved resolve src ptag creator)
  else if nestedResolved resolve true src ptag creator ≠ Tag.unresolved
  then Flow.ret (nestedResolved resolve true src ptag creator)
  else Flow.next (candidateTagAfter tagFromPrivSeq (nestedResolved resolve false src ptag creator))

/-- The elements of a source item; none when there is no item. -/
def sourceElements (src : Option Item) : List DataElement :=
  match src with
  | some it => it.elements
  | none => []

/-- The per-frame item that the search uses for the frame index `idx`:
`items[f]` with `f` the index converted to `unsigned int`, none when `f` is
not below the number of per-frame items. -/
def perFrameItem (pf : List Item) (idx : Int) : Option Item := pf[toUnsigned idx]?

/-- The attribute is absent everywhere: `tag` has no valid value directly in
the per-frame item, directly in the shared item, inside the single Item of
any one-item sequence element of either, or in the base store. -/
def AbsentEverywhere (pfItem shItem : Option Item) (base : Value) (tag : Tag) : Prop :=
  (directHit pfItem tag).IsValid = false ∧
  (directHit shItem tag).IsValid = false ∧
  (∀ e ∈ sourceElements pfItem, (nestedValue e tag).IsValid = false) ∧
  (∀ e ∈ sourceElements shItem, (nestedValue e tag).IsValid = false) ∧
  base.IsValid = false

/-- One of the searched places holds a valid value for `tag`. -/
def PresentSomewhere (pfItem shItem : Option Item) (base : Value) (tag : Tag) : Prop :=
  (directHit pfItem tag).IsValid = true ∨
  (directHit shItem tag).IsValid = true ∨
  (∃ e ∈ sourceElements pfItem, (nestedValue e tag).IsValid = true) ∨
  (∃ e ∈ sourceElements shItem, (nestedValue e tag).IsValid = true) ∨
  base.IsValid = true

/-- The single Item of the element `e`, when its value is a sequence of
exactly one Item. -/
def nestedItem (e : DataElement) : Option Item :=
  match e.GetValue with
  | .seq [item] => some item
  | _ => none

/-! ## Example data -/

namespace Example

/-- SliceThickness (0018,0050): set directly in the per-frame items, in the
shared item and in the store. -/
def tagA : Tag := ⟨0x0018, 0x0050⟩

/-- SpacingBetweenSlices (0018,0088): nested under a public element of the
shared item and under a private element of per-frame item 0. -/
def tagB : Tag := ⟨0x0018, 0x0088⟩

/-- An attribute (0018,9073) that is nested under a private element of
per-frame item 0 only. -/
def tagC : Tag := ⟨0x0018, 0x9073⟩

/-- Modality (0008,0060): nested under a private element of per-frame item 0
and set in the store. -/
def tagD : Tag := ⟨0x0008, 0x0060⟩

/-- PatientName (0010,0010): set in the store only. -/
def tagE : Tag := ⟨0x0010, 0x0010⟩

/-- A private sequence element tag (2005,140F). -/
def privSeq : Tag := ⟨0x2005, 0x140F⟩

/-- A public sequence element tag, PixelMeasuresSequence (0028,9110). -/
def pubSeq : Tag := ⟨0x0028, 0x9110⟩

/-- A private placeholder tag (2005,1001) and its allocation (2005,1401). -/
def ptag : Tag := ⟨0x2005, 0x1001⟩

/-- The tag that `ptag` resolves to in the example items. -/
def resolvedTag : Tag := ⟨0x2005, 0x1401⟩

/-- The item nested under the private sequence element of per-frame item 0. -/
def privNested : Item :=
  .mk [.mk tagD (.data [31]), .mk tagB (.data [12]), .mk tagC (.data [21]),
       .mk resolvedTag (.data [77])]

/-- Per-frame item 0. -/
def pfItem0 : Item := .mk [.mk tagA (.data [3]), .mk privSeq (.seq [privNested])]

/-- Per-frame item 1. -/
def pfItem1 : Item := .mk [.mk tagA (.data [6])]

/-- The item nested under the public sequence element of the shared item. -/
def pubNested : Item := .mk [.mk tagB (.data [11])]

/-- Shared item 0. -/
def shItem0 : Item := .mk [.mk tagA (.data [4]), .mk pubSeq (.seq [pubNested])]

/-- A store of one instance with NumberOfFrames, `tagA`, `tagD` and `tagE`. -/
def store : MetaData where
  Get := fun _ tag =>
    if tag = DC.NumberOfFrames then .data [2]
    else if tag = tagA then .data [5]
    else if tag = tagD then .data [32]
    else if tag = tagE then .data [41]
    else .invalid
  ResolvePrivateTag := fun _ _ _ => Tag.unresolved
  GetNumberOfInstances := 1
  Find := fun tag =>
    if tag = DC.PerFrameFunctionalGroupsSequence then some (.single (.seq [pfItem0, pfItem1]))
    else if tag = DC.SharedFunctionalGroupsSequence then some (.single (.seq [shItem0]))
    else none

/-- An adapter over `store` in per-frame mode. -/
def adapter : Adapter where
  Meta := some store
  PerFrame := some (.seq [pfItem0, pfItem1])
  Shared := some (.seq [shItem0])
  NullValue := some .invalid
  NumberOfInstances := 2
  MetaInstance := 0

/-- An adapter over `store` in flat mode. -/
def flatAdapter : Adapter where
  Meta := some store
  PerFrame := none
  Shared := none
  NullValue := none
  NumberOfInstances := 1
  MetaInstance := 0

/-- A resolution of private tags for the example items: the creator "ACME"
owns block 0x14 of group 0x2005 in every item. -/
def resolve : Item → Tag → String → Tag :=
  fun _ t creator => if creator = "ACME" ∧ t = ptag then resolvedTag else Tag.unresolved

/-- A store without any attribute. -/
def emptyStore : MetaData where
  Get := fun _ _ => .invalid
  ResolvePrivateTag := fun _ _ _ => Tag.unresolved
  GetNumberOfInstances := 1
  Find := fun _ => none

/-- A per-frame item that sets NumberOfFrames directly. -/
def nofItem : Item := .mk [.mk DC.NumberOfFrames (.data [9])]

/-- An adapter in per-frame mode whose per-frame item 0 sets NumberOfFrames. -/
def nofDirectAdapter : Adapter where
  Meta := some emptyStore
  PerFrame := some (.seq [nofItem])
  Shared := some (.seq [.mk []])
  NullValue := some .invalid
  NumberOfInstances := 1
  MetaInstance := 0

/-- A per-frame item with NumberOfFrames nested under a private element only. -/
def nofPrivItem : Item := .mk [.mk privSeq (.seq [.mk [.mk DC.NumberOfFrames (.data [8])]])]

/-- A shared item with NumberOfFrames nested under a public element only. -/
def nofPubItem : Item := .mk [.mk pubSeq (.seq [.mk [.mk DC.NumberOfFrames (.data [7])]])]

/-- An adapter in per-frame mode with NumberOfFrames nested under a public
element of the shared item and under a private element of per-frame item 0. -/
def nofNestedAdapter : Adapter where
  Meta := some emptyStore
  PerFrame := some (.seq [nofPrivItem])
  Shared := some (.seq [nofPubItem])
  NullValue := some .invalid
  NumberOfInstances := 1
  MetaInstance := 0

/-- An adapter in per-frame mode with NumberOfFrames nested under a private
element of per-frame item 0 and nowhere else. -/
def nofPrivateAdapter : Adapter where
  Meta := some emptyStore
  PerFrame := some (.seq [nofPrivItem])
  Shared := some (.seq [.mk []])
  NullValue := some .invalid
  NumberOfInstances := 1
  MetaInstance := 0

/-- A store of two instances (a series of two files) without functional
groups, in which only instance 1 has a private block of the creator "ACME". -/
def seriesStore : MetaData where
  Get := fun _ _ => .invalid
  ResolvePrivateTag := fun i t creator =>
    if i = 1 ∧ creator = "ACME" ∧ t = ptag then resolvedTag else Tag.unresolved
  GetNumberOfInstances := 2
  Find := fun _ => none

/-- The adapter that the one-argument constructor builds over `seriesStore`. -/
def seriesAdapter : Adapter := Adapter.construct (some seriesStore)

/-- Two stores at the addresses 1 and 2, each with the reference count 1 of
its creator, and no adapter. -/
def twoStores : Lifetime where
  refCount := fun _ => 1
  held := []

/-- An adapter over store 1 at address 10 and one over store 2 at address
20 are constructed, the second is assigned to the first, and both are
destroyed. -/
def assignThenDestroy : List LifetimeOp :=
  [.construct 10 (some 1), .construct 20 (some 2), .operatorAssign 10 20,
   .destroy 10, .destroy 20]

/-- A store without functional groups whose value at every tag is the
number of the instance that is asked. -/
def indexStore : MetaData where
  Get := fun i _ => .data [i]
  ResolvePrivateTag := fun _ _ _ => Tag.unresolved
  GetNumberOfInstances := 2
  Find := fun _ => none

/-- A store whose PerFrameFunctionalGroupsSequence attribute holds a valid
value that is not a sequence, next to a Shared sequence of one item. -/
def dataStore : MetaData where
  Get := fun _ tag => if tag = DC.NumberOfFrames then .data [1] else .invalid
  ResolvePrivateTag := fun _ _ _ => Tag.unresolved
  GetNumberOfInstances := 1
  Find := fun tag =>
    if tag = DC.PerFrameFunctionalGroupsSequence then some (.single (.data [1]))
    else if tag = DC.SharedFunctionalGroupsSequence then some (.single (.seq [shItem0]))
    else none

end Example

/-! ## Lemmas on the search loops -/

theorem get_scan_cons (tag : Tag) (e : DataElement) (rest : List DataElement)
    (pv : Option Value) :
    Get.searchSequences tag (e :: rest) pv =
      if (nestedValue e tag).IsValid then
        if e.GetTag.isPublic then Flow.ret (nestedValue e tag)
        else if pv.isNone then Get.searchSequences tag rest (some (nestedValue e tag))
        else Get.searchSequences tag rest pv
      else Get.searchSequences tag rest pv := by
  cases e with
  | mk t v =>
    cases v with
    | invalid => simp [Get.searchSequences, nestedValue, DataElement.GetValue,
        Value.GetNumberOfValues, Value.IsValid]
    | data vals => simp [Get.searchSequences, nestedValue, DataElement.GetValue,
        Value.GetSequenceData, Value.IsValid]
    | seq items =>
      rcases items with _ | ⟨item, _ | ⟨item2, more⟩⟩ <;>
        simp [Get.searchSequences, nestedValue, DataElement.GetValue,
          Value.GetSequenceData, Value.GetNumberOfValues, Value.IsValid]

theorem nestedHitIn_nil (pub : Bool) (tag : Tag) :
    nestedHitIn pub [] tag = Value.invalid := rfl

theorem nestedHitIn_cons (pub : Bool) (e : DataElement) (es : List DataElement) (tag : Tag) :
    nestedHitIn pub (e :: es) tag =
      if (e.GetTag.isPublic == pub) = true ∧ (nestedValue e tag).IsValid = true
      then nestedValue e tag else nestedHitIn pub es tag := by
  unfold nestedHitIn
  by_cases h : (e.GetTag.isPublic == pub) = true
  · by_cases hv : (nestedValue e tag).IsValid = true <;>
      simp [List.filter_cons, h, hv, firstValid]
  · simp [List.filter_cons, h]

theorem get_scan_eq (tag : Tag) (es : List DataElement) (pv : Option Value) :
    Get.searchSequences tag es pv =
      if (nestedHitIn true es tag).IsValid then Flow.ret (nestedHitIn true es tag)
      else Flow.next (candidateAfter pv (nestedHitIn false es tag)) := by
  induction es generalizing pv with
  | nil =>
    cases pv <;> simp [Get.searchSequences, nestedHitIn_nil, candidateAfter, Value.IsValid]
  | cons e rest ih =>
    rw [get_scan_cons, nestedHitIn_cons, nestedHitIn_cons]
    by_cases hv : (nestedValue e tag).IsValid = true
    · by_cases hp : e.GetTag.isPublic = true
      · simp [hv, hp]
      · cases pv with
        | none => simp [hv, hp, ih, candidateAfter]
        | some p => simp [hv, hp, ih, candidateAfter]
    · simp [hv, ih]

theorem get_group_seq (items : List Item) (f : Nat) (tag : Tag) (pv : Option Value) :
    Get.searchGroup (some (Value.seq items)) f tag pv =
      some (groupOutcome items[f]? tag pv) := by
  unfold Get.searchGroup groupOutcome
  by_cases hf : f < items.length
  · have hget : items[f]? = some items[f] := List.getElem?_eq_getElem hf
    simp only [Value.GetNumberOfValues, hf, if_true, Value.GetSequenceData, hget, directHit,
      nestedHit, get_scan_eq]
    by_cases hd : (items[f].Get tag).IsValid = true <;> simp [hd]
  · have hget : items[f]? = none := List.getElem?_eq_none (Nat.le_of_not_lt hf)
    simp [Value.GetNumberOfValues, hf, hget, directHit, nestedHit, Value.IsValid,
      candidateAfter]
    cases pv <;> rfl

/-- In per-frame mode `Get` computes the precedence list of the
specification, for every frame index, with the per-frame item at the index
converted to `unsigned int` (none when that is out of range) and the shared
item 0 (none when the shared sequence is empty). -/
theorem Get_eq_getPrecedence (a : Adapter) (m : MetaData) (pf sh : List Item)
    (h : PerFrameMode a m pf sh) (idx : Int) (tag : Tag) (ht : tag ≠ DC.NumberOfFrames) :
    a.Get idx tag =
      some (Spec.getPrecedence pf[toUnsigned idx]? sh[0]? (m.Get a.MetaInstance tag) tag) := by
  unfold Adapter.Get
  simp only [h.hPerFrame, h.hShared, h.hMeta, ht, if_false, get_group_seq]
  unfold groupOutcome Spec.getPrecedence
  generalize directHit pf[toUnsigned idx]? tag = d1
  generalize nestedHit true pf[toUnsigned idx]? tag = n1
  generalize directHit sh[0]? tag = d2
  generalize nestedHit true sh[0]? tag = n2
  generalize nestedHit false pf[toUnsigned idx]? tag = p1
  generalize nestedHit false sh[0]? tag = p2
  generalize m.Get a.MetaInstance tag = b
  by_cases h1 : d1.IsValid = true
  · simp [h1, firstValid]
  by_cases h2 : n1.IsValid = true
  · simp [h1, h2, firstValid]
  by_cases h3 : d2.IsValid = true
  · simp [h1, h2, h3, firstValid]
  by_cases h4 : n2.IsValid = true
  · simp [h1, h2, h3, h4, firstValid]
  by_cases h5 : b.IsValid = true
  · by_cases h6 : p1.IsValid = true <;> by_cases h7 : p2.IsValid = true <;>
      simp [h1, h2, h3, h4, h5, h6, h7, firstValid, candidateAfter]
  · by_cases h6 : p1.IsValid = true <;> by_cases h7 : p2.IsValid = true <;>
      simp [h1, h2, h3, h4, h5, h6, h7, firstValid, candidateAfter]

theorem acceptedIn_ne_iff (resolve : Item → Tag → String → Tag) (it : Item) (ptag : Tag)
    (creator : String) :
    acceptedIn resolve it ptag creator ≠ Tag.unresolved ↔
      (resolve it ptag creator ≠ Tag.unresolved ∧
        (it.Get (resolve it ptag creator)).IsValid = true) := by
  unfold acceptedIn
  by_cases h : resolve it ptag creator ≠ Tag.unresolved ∧
      (it.Get (resolve it ptag creator)).IsValid = true
  · simp only [h, and_self, if_true]
    simp [h.1]
  · simp [h]

theorem acceptedIn_of_ne (resolve : Item → Tag → String → Tag) (it : Item) (ptag : Tag)
    (creator : String) (h : acceptedIn resolve it ptag creator ≠ Tag.unresolved) :
    acceptedIn resolve it ptag creator = resolve it ptag creator := by
  have h2 := (acceptedIn_ne_iff resolve it ptag creator).1 h
  unfold acceptedIn
  simp [h2.1, h2.2]

theorem resolve_scan_cons (resolve : Item → Tag → String → Tag)
    (ptag : Tag) (creator : String) (e : DataElement) (rest : List DataElement) (t0 : Tag) :
    ResolvePrivateTag.searchSequences resolve ptag creator (e :: rest) t0 =
      if nestedResolution resolve e ptag creator ≠ Tag.unresolved then
        if e.GetTag.isPublic then Flow.ret (nestedResolution resolve e ptag creator)
        else if t0 = Tag.unresolved then
          ResolvePrivateTag.searchSequences resolve ptag creator rest
            (nestedResolution resolve e ptag creator)
        else ResolvePrivateTag.searchSequences resolve ptag creator rest t0
      else ResolvePrivateTag.searchSequences resolve ptag creator rest t0 := by
  cases e with
  | mk t v =>
    cases v with
    | invalid => simp [ResolvePrivateTag.searchSequences, nestedResolution,
        DataElement.GetValue, Value.GetNumberOfValues]
    | data vals => simp [ResolvePrivateTag.searchSequences, nestedResolution,
        DataElement.GetValue, Value.GetSequenceData]
    | seq items =>
      rcases items with _ | ⟨item, _ | ⟨item2, more⟩⟩
      · simp [ResolvePrivateTag.searchSequences, nestedResolution, DataElement.GetValue,
          Value.GetSequenceData, Value.GetNumberOfValues]
      · by_cases h : acceptedIn resolve item ptag creator ≠ Tag.unresolved
        · have h2 := (acceptedIn_ne_iff resolve item ptag creator).1 h
          have h3 := acceptedIn_of_ne resolve item ptag creator h
          simp [ResolvePrivateTag.searchSequences, nestedResolution, DataElement.GetValue,
            Value.GetSequenceData, Value.GetNumberOfValues, h3, h2.1, h2.2]
        · have h2 := (not_congr (acceptedIn_ne_iff resolve item ptag creator)).1 h
          have h3 : acceptedIn resolve item ptag creator = Tag.unresolved := by
            by_contra hc; exact h hc
          by_cases hr : resolve item ptag creator = Tag.unresolved
          · simp [ResolvePrivateTag.searchSequences, nestedResolution, DataElement.GetValue,
              Value.GetSequenceData, Value.GetNumberOfValues, h3, hr]
          · have hv : (item.Get (resolve item ptag creator)).IsValid = false := by
              cases hval : (item.Get (resolve item ptag creator)).IsValid
              · rfl
              · exact absurd ⟨hr, hval⟩ h2
            simp [ResolvePrivateTag.searchSequences, nestedResolution, DataElement.GetValue,
              Value.GetSequenceData, Value.GetNumberOfValues, h3, hr, hv]
      · simp [ResolvePrivateTag.searchSequences, nestedResolution, DataElement.GetValue,
          Value.GetSequenceData, Value.GetNumberOfValues]

theorem nestedResolvedIn_nil (resolve : Item → Tag → String → Tag) (pub : Bool) (ptag : Tag)
    (creator : String) : nestedResolvedIn resolve pub [] ptag creator = Tag.unresolved := rfl

theorem nestedResolvedIn_cons (resolve : Item → Tag → String → Tag) (pub : Bool)
    (e : DataElement) (es : List DataElement) (ptag : Tag) (creator : String) :
    nestedResolvedIn resolve pub (e :: es) ptag creator =
      if (e.GetTag.isPublic == pub) = true ∧ nestedResolution resolve e ptag creator ≠ Tag.unresolved
      then nestedResolution resolve e ptag creator
      else nestedResolvedIn resolve pub es ptag creator := by
  unfold nestedResolvedIn
  by_cases h : (e.GetTag.isPublic == pub) = true
  · by_cases hv : nestedResolution resolve e ptag creator = Tag.unresolved <;>
      simp [List.filter_cons, h, hv, firstResolved]
  · simp [List.filter_cons, h]

theorem resolve_scan_eq (resolve : Item → Tag → String → Tag)
    (ptag : Tag) (creator : String) (es : List DataElement) (t0 : Tag) :
    ResolvePrivateTag.searchSequences resolve ptag creator es t0 =
      if nestedResolvedIn resolve true es ptag creator ≠ Tag.unresolved
      then Flow.ret (nestedResolvedIn resolve true es ptag creator)
      else Flow.next (candidateTagAfter t0 (nestedResolvedIn resolve false es ptag creator)) := by
  induction es generalizing t0 with
  | nil =>
    simp [ResolvePrivateTag.searchSequences, nestedResolvedIn_nil, candidateTagAfter]
    by_cases h0 : t0 = Tag.unresolved <;> simp [h0]
  | cons e rest ih =>
    rw [resolve_scan_cons, nestedResolvedIn_cons, nestedResolvedIn_cons]
    by_cases hv : nestedResolution resolve e ptag creator = Tag.unresolved
    · simp [hv, ih]
    · by_cases hp : e.GetTag.isPublic = true
      · simp [hv, hp]
      · by_cases h0 : t0 = Tag.unresolved
        · simp [hv, hp, ih, candidateTagAfter, h0]
        · simp [hv, hp, ih, candidateTagAfter, h0]

theorem resolve_group_seq (resolve : Item → Tag → String → Tag)
    (items : List Item) (f : Nat) (ptag : Tag) (creator : String) (t0 : Tag) :
    ResolvePrivateTag.searchGroup resolve (some (Value.seq items)) f ptag creator t0 =
      some (groupResolveOutcome resolve items[f]? ptag creator t0) := by
  unfold ResolvePrivateTag.searchGroup groupResolveOutcome
  by_cases hf : f < items.length
  · have hget : items[f]? = some items[f] := List.getElem?_eq_getElem hf
    simp only [Value.GetNumberOfValues, hf, if_true, Value.GetSequenceData, hget,
      directResolved, nestedResolved, resolve_scan_eq]
    by_cases hd : acceptedIn resolve items[f] ptag creator ≠ Tag.unresolved
    · have h2 := (acceptedIn_ne_iff resolve items[f] ptag creator).1 hd
      have h3 := acceptedIn_of_ne resolve items[f] ptag creator hd
      rw [if_pos h2, if_pos hd, h3]
    · have h2 := (not_congr (acceptedIn_ne_iff resolve items[f] ptag creator)).1 hd
      rw [if_neg h2, if_neg hd]
  · have hget : items[f]? = none := List.getElem?_eq_none (Nat.le_of_not_lt hf)
    simp [Value.GetNumberOfValues, hf, hget, directResolved, nestedResolved,
      candidateTagAfter]
    by_cases h0 : t0 = Tag.unresolved <;> simp [h0]

/-- In per-frame mode `ResolvePrivateTag` computes the precedence list of
the specification, for every frame index. -/
theorem ResolvePrivateTag_eq_resolvePrecedence (resolve : Item → Tag → String → Tag)
    (a : Adapter) (m : MetaData) (pf sh : List Item) (h : PerFrameMode a m pf sh)
    (idx : Int) (ptag : Tag) (creator : String) :
    a.ResolvePrivateTag resolve idx ptag creator =
      some (Spec.resolvePrecedence resolve pf[toUnsigned idx]? sh[0]?
        (m.ResolvePrivateTag a.MetaInstance ptag creator) ptag creator) := by
  unfold Adapter.ResolvePrivateTag
  simp only [h.hPerFrame, h.hShared, h.hMeta, resolve_group_seq]
  unfold groupResolveOutcome Spec.resolvePrecedence
  generalize directResolved resolve pf[toUnsigned idx]? ptag creator = d1
  generalize nestedResolved resolve true pf[toUnsigned idx]? ptag creator = n1
  generalize directResolved resolve sh[0]? ptag creator = d2
  generalize nestedResolved resolve true sh[0]? ptag creator = n2
  generalize nestedResolved resolve false pf[toUnsigned idx]? ptag creator = p1
  generalize nestedResolved resolve false sh[0]? ptag creator = p2
  generalize m.ResolvePrivateTag a.MetaInstance ptag creator = b
  by_cases h1 : d1 = Tag.unresolved
  swap
  · simp [h1, firstResolved]
  by_cases h2 : n1 = Tag.unresolved
  swap
  · simp [h1, h2, firstResolved]
  by_cases h3 : d2 = Tag.unresolved
  swap
  · simp [h1, h2, h3, firstResolved]
  by_cases h4 : n2 = Tag.unresolved
  swap
  · simp [h1, h2, h3, h4, firstResolved]
  by_cases h5 : b = Tag.unresolved <;> by_cases h6 : p1 = Tag.unresolved <;>
    by_cases h7 : p2 = Tag.unresolved <;>
    simp [h1, h2, h3, h4, h5, h6, h7, firstResolved, candidateTagAfter]

theorem toUnsigned_of_nonneg (idx : Int) (h0 : 0 ≤ idx) (h1 : idx < 2147483648) :
    toUnsigned idx = idx.toNat := by
  unfold toUnsigned
  rw [Int.emod_eq_of_lt h0 (by omega)]

theorem firstValid_isValid (l : List Value) (d : Value) :
    (firstValid l d).IsValid = true ↔ (∃ v ∈ l, v.IsValid = true) ∨ d.IsValid = true := by
  induction l with
  | nil => simp [firstValid]
  | cons v vs ih =>
    by_cases hv : v.IsValid = true
    · simp only [firstValid, hv, if_true, true_iff]
      exact Or.inl ⟨v, List.mem_cons_self _ _, hv⟩
    · have hv2 : v.IsValid = false := by simpa using hv
      have hstep : firstValid (v :: vs) d = firstValid vs d := by simp [firstValid, hv2]
      rw [hstep, ih]
      simp only [List.mem_cons]
      constructor
      · rintro (⟨w, hw, hwv⟩ | hd)
        · exact Or.inl ⟨w, Or.inr hw, hwv⟩
        · exact Or.inr hd
      · rintro (⟨w, hw | hw, hwv⟩ | hd)
        · exact absurd (hw ▸ hwv) hv
        · exact Or.inl ⟨w, hw, hwv⟩
        · exact Or.inr hd

theorem nestedHitIn_isValid (pub : Bool) (es : List DataElement) (tag : Tag) :
    (nestedHitIn pub es tag).IsValid = true ↔
      ∃ e ∈ es, e.GetTag.isPublic = pub ∧ (nestedValue e tag).IsValid = true := by
  induction es with
  | nil => simp [nestedHitIn_nil, Value.IsValid]
  | cons e rest ih =>
    rw [nestedHitIn_cons]
    by_cases h : (e.GetTag.isPublic == pub) = true ∧ (nestedValue e tag).IsValid = true
    · rw [if_pos h]
      simp only [h.2, true_iff]
      exact ⟨e, List.mem_cons_self _ _, by simpa using h.1, h.2⟩
    · rw [if_neg h, ih]
      constructor
      · rintro ⟨x, hx, hp, hv⟩
        exact ⟨x, List.mem_cons_of_mem _ hx, hp, hv⟩
      · rintro ⟨x, hx, hp, hv⟩
        rcases List.mem_cons.1 hx with rfl | hx
        · exact absurd ⟨by simpa using hp, hv⟩ h
        · exact ⟨x, hx, hp, hv⟩

theorem nestedHitIn_eq_of_isValid (pub : Bool) (es : List DataElement) (tag : Tag)
    (h : (nestedHitIn pub es tag).IsValid = true) :
    ∃ e ∈ es, e.GetTag.isPublic = pub ∧ nestedHitIn pub es tag = nestedValue e tag := by
  induction es with
  | nil => simp [nestedHitIn_nil, Value.IsValid] at h
  | cons e rest ih =>
    rw [nestedHitIn_cons] at h ⊢
    by_cases hc : (e.GetTag.isPublic == pub) = true ∧ (nestedValue e tag).IsValid = true
    · rw [if_pos hc]
      exact ⟨e, List.mem_cons_self _ _, by simpa using hc.1, rfl⟩
    · rw [if_neg hc] at h ⊢
      obtain ⟨x, hx, hp, hv⟩ := ih h
      exact ⟨x, List.mem_cons_of_mem _ hx, hp, hv⟩

theorem nestedHit_isValid (pub : Bool) (src : Option Item) (tag : Tag) :
    (nestedHit pub src tag).IsValid = true ↔
      ∃ e ∈ sourceElements src, e.GetTag.isPublic = pub ∧ (nestedValue e tag).IsValid = true := by
  cases src with
  | none => simp [nestedHit, sourceElements, Value.IsValid]
  | some it => simp only [nestedHit, sourceElements, nestedHitIn_isValid]

theorem nestedHit_not_isValid (pub : Bool) (src : Option Item) (tag : Tag)
    (h : ∀ e ∈ sourceElements src, e.GetTag.isPublic = pub →
      (nestedValue e tag).IsValid = false) :
    (nestedHit pub src tag).IsValid = false := by
  cases hv : (nestedHit pub src tag).IsValid
  · rfl
  · obtain ⟨e, he, hp, hval⟩ := (nestedHit_isValid pub src tag).1 hv
    rw [h e he hp] at hval
    exact absurd hval (by simp)

theorem getPrecedence_isValid (pfItem shItem : Option Item) (base : Value) (tag : Tag) :
    (Spec.getPrecedence pfItem shItem base tag).IsValid = true ↔
      PresentSomewhere pfItem shItem base tag := by
  unfold Spec.getPrecedence PresentSomewhere
  rw [firstValid_isValid]
  constructor
  · rintro (⟨v, hv, hval⟩ | hb)
    · simp only [List.mem_cons, List.mem_singleton, List.not_mem_nil, or_false] at hv
      rcases hv with rfl | rfl | rfl | rfl | rfl | rfl | rfl
      · exact Or.inl hval
      · obtain ⟨e, he, _, hv⟩ := (nestedHit_isValid true pfItem tag).1 hval
        exact Or.inr (Or.inr (Or.inl ⟨e, he, hv⟩))
      · exact Or.inr (Or.inl hval)
      · obtain ⟨e, he, _, hv⟩ := (nestedHit_isValid true shItem tag).1 hval
        exact Or.inr (Or.inr (Or.inr (Or.inl ⟨e, he, hv⟩)))
      · exact Or.inr (Or.inr (Or.inr (Or.inr hval)))
      · obtain ⟨e, he, _, hv⟩ := (nestedHit_isValid false pfItem tag).1 hval
        exact Or.inr (Or.inr (Or.inl ⟨e, he, hv⟩))
      · obtain ⟨e, he, _, hv⟩ := (nestedHit_isValid false shItem tag).1 hval
        exact Or.inr (Or.inr (Or.inr (Or.inl ⟨e, he, hv⟩)))
    · exact Or.inr (Or.inr (Or.inr (Or.inr hb)))
  · rintro (h | h | ⟨e, he, hv⟩ | ⟨e, he, hv⟩ | h)
    · exact Or.inl ⟨_, by simp, h⟩
    · exact Or.inl ⟨_, by simp, h⟩
    · have hn : (nestedHit e.GetTag.isPublic pfItem tag).IsValid = true :=
        (nestedHit_isValid _ pfItem tag).2 ⟨e, he, rfl, hv⟩
      cases hp : e.GetTag.isPublic
      · rw [hp] at hn; exact Or.inl ⟨_, by simp, hn⟩
      · rw [hp] at hn; exact Or.inl ⟨_, by simp, hn⟩
    · have hn : (nestedHit e.GetTag.isPublic shItem tag).IsValid = true :=
        (nestedHit_isValid _ shItem tag).2 ⟨e, he, rfl, hv⟩
      cases hp : e.GetTag.isPublic
      · rw [hp] at hn; exact Or.inl ⟨_, by simp, hn⟩
      · rw [hp] at hn; exact Or.inl ⟨_, by simp, hn⟩
    · exact Or.inr h

theorem not_presentSomewhere_of_absentEverywhere (pfItem shItem : Option Item) (base : Value)
    (tag : Tag) (h : AbsentEverywhere pfItem shItem base tag) :
    ¬ PresentSomewhere pfItem shItem base tag := by
  obtain ⟨h1, h2, h3, h4, h5⟩ := h
  rintro (p | p | ⟨e, he, p⟩ | ⟨e, he, p⟩ | p)
  · rw [h1] at p; exact absurd p (by simp)
  · rw [h2] at p; exact absurd p (by simp)
  · rw [h3 e he] at p; exact absurd p (by simp)
  · rw [h4 e he] at p; exact absurd p (by simp)
  · rw [h5] at p; exact absurd p (by simp)

/-- The precedence list at a frame index that has a per-frame item. -/
theorem Get_at_frame (a : Adapter) (m : MetaData) (pf sh : List Item)
    (h : PerFrameMode a m pf sh) (idx : Int) (it : Item) (tag : Tag)
    (h0 : 0 ≤ idx) (h1 : idx < 2147483648) (hit : pf[idx.toNat]? = some it)
    (ht : tag ≠ DC.NumberOfFrames) :
    a.Get idx tag =
      some (Spec.getPrecedence (some it) sh[0]? (m.Get a.MetaInstance tag) tag) := by
  have hg := Get_eq_getPrecedence a m pf sh h idx tag ht
  rw [toUnsigned_of_nonneg idx h0 h1, hit] at hg
  exact hg

theorem getPrecedence_eq_base (pfItem shItem : Option Item) (base : Value) (tag : Tag)
    (h1 : (directHit pfItem tag).IsValid = false)
    (h2 : (nestedHit true pfItem tag).IsValid = false)
    (h3 : (directHit shItem tag).IsValid = false)
    (h4 : (nestedHit true shItem tag).IsValid = false)
    (h5 : base.IsValid = true ∨
      ((nestedHit false pfItem tag).IsValid = false ∧
        (nestedHit false shItem tag).IsValid = false)) :
    Spec.getPrecedence pfItem shItem base tag = base := by
  rcases h5 with hb | ⟨h6, h7⟩
  · simp [Spec.getPrecedence, firstValid, h1, h2, h3, h4, hb]
  · simp [Spec.getPrecedence, firstValid, h1, h2, h3, h4, h6, h7]

theorem nestedHitIn_first (pub : Bool) (es : List DataElement) (tag : Tag)
    (h : (nestedHitIn pub es tag).IsValid = true) :
    ∃ pre e post, es = pre ++ e :: post ∧ e.GetTag.isPublic = pub ∧
      (nestedValue e tag).IsValid = true ∧ nestedHitIn pub es tag = nestedValue e tag ∧
      ∀ x ∈ pre, x.GetTag.isPublic = pub → (nestedValue x tag).IsValid = false := by
  induction es with
  | nil => simp [nestedHitIn_nil, Value.IsValid] at h
  | cons e rest ih =>
    rw [nestedHitIn_cons] at h ⊢
    by_cases hc : (e.GetTag.isPublic == pub) = true ∧ (nestedValue e tag).IsValid = true
    · rw [if_pos hc]
      exact ⟨[], e, rest, rfl, by simpa using hc.1, hc.2, rfl, by simp⟩
    · rw [if_neg hc] at h ⊢
      obtain ⟨pre, x, post, hes, hp, hv, heq, hpre⟩ := ih h
      refine ⟨e :: pre, x, post, by rw [hes]; rfl, hp, hv, heq, ?_⟩
      intro y hy hyp
      rcases List.mem_cons.1 hy with rfl | hy
      · cases hval : (nestedValue y tag).IsValid
        · rfl
        · exact absurd ⟨by simpa using hyp, hval⟩ hc
      · exact hpre y hy hyp

theorem mem_of_getElem_eq_some (l : List Item) (n : Nat) (it : Item)
    (h : l[n]? = some it) : it ∈ l := by
  rw [List.getElem?_eq_some] at h
  obtain ⟨hn, heq⟩ := h
  rw [← heq]
  exact List.getElem_mem hn

theorem source_absent_of_all (l : List Item) (n : Nat) (tag : Tag)
    (hall : ∀ it ∈ l, (it.Get tag).IsValid = false ∧
      ∀ e ∈ it.elements, (nestedValue e tag).IsValid = false) :
    (directHit l[n]? tag).IsValid = false ∧
      ∀ e ∈ sourceElements l[n]?, (nestedValue e tag).IsValid = false := by
  cases hs : l[n]? with
  | none => simp [directHit, sourceElements, Value.IsValid]
  | some it =>
    have hmem := mem_of_getElem_eq_some l n it hs
    exact ⟨(hall it hmem).1, (hall it hmem).2⟩

theorem addInt32_of_inRange (x y : Int) (hlo : -2147483648 ≤ x + y)
    (hhi : x + y < 2147483648) : addInt32 x y = x + y := by
  unfold addInt32
  rw [Int.emod_eq_of_lt (by omega) (by omega)]
  omega

theorem Get_of_flat (a : Adapter) (m : MetaData) (h : FlatMode a m) (idx : Int) (tag : Tag) :
    a.Get idx tag = some (m.Get (addInt32 idx a.MetaInstance) tag) := by
  unfold Adapter.Get
  simp [h.hPerFrame, h.hMeta]

theorem ResolvePrivateTag_of_flat (resolve : Item → Tag → String → Tag) (a : Adapter)
    (m : MetaData) (h : FlatMode a m) (idx : Int) (ptag : Tag) (creator : String) :
    a.ResolvePrivateTag resolve idx ptag creator =
      some (m.ResolvePrivateTag (addInt32 idx a.MetaInstance) ptag creator) := by
  unfold Adapter.ResolvePrivateTag
  simp [h.hPerFrame, h.hMeta]

/-! ## The claims -/

/-- C1: in per-frame mode, for every frame index that has a per-frame item
and every tag other than NumberOfFrames, `Get` returns the first valid value
of the fixed list (per-frame direct, per-frame public-nested, shared direct,
shared public-nested, base store, per-frame private-nested, shared
private-nested), and the (invalid) base-store lookup when none is valid. -/
theorem C1_Get_precedence (a : Adapter) (m : MetaData) (pf sh : List Item)
    (h : PerFrameMode a m pf sh) (idx : Int) (it : Item) (tag : Tag)
    (h0 : 0 ≤ idx) (h1 : idx < 2147483648) (hit : pf[idx.toNat]? = some it)
    (ht : tag ≠ DC.NumberOfFrames) :
    a.Get idx tag =
      some (firstValid
        [directHit (some it) tag, nestedHit true (some it) tag,
         directHit sh[0]? tag, nestedHit true sh[0]? tag,
         m.Get a.MetaInstance tag,
         nestedHit false (some it) tag, nestedHit false sh[0]? tag]
        (m.Get a.MetaInstance tag)) := by
  exact Get_at_frame a m pf sh h idx it tag h0 h1 hit ht

/-- Witness of C1: in the example, frame 0 and `tagB` give the value nested
under the public element of the shared item. -/
theorem C1_Get_precedence_witness :
    Example.adapter.Get 0 Example.tagB = some (Value.data [11]) :=
  (C1_Get_precedence Example.adapter Example.store [Example.pfItem0, Example.pfItem1]
    [Example.shItem0] ⟨rfl, rfl, rfl, rfl⟩ 0 Example.pfItem0 Example.tagB
    (by decide) (by decide) rfl (by decide)).trans rfl

/-- C2: in per-frame mode, for every frame index and every tag, `Get`
returns an invalid value when the attribute is absent everywhere (per-frame
item, shared item 0, the single Item of any one-item sequence element of
either, base store); and for a tag other than NumberOfFrames, `Get` returns
a valid value when one of those places holds a valid value. -/
theorem C2_Get_invalid_iff_absent (a : Adapter) (m : MetaData) (pf sh : List Item)
    (h : PerFrameMode a m pf sh) (idx : Int) (tag : Tag) :
    (AbsentEverywhere (perFrameItem pf idx) sh[0]? (m.Get a.MetaInstance tag) tag →
      ∃ v, a.Get idx tag = some v ∧ v.IsValid = false) ∧
    (tag ≠ DC.NumberOfFrames →
      PresentSomewhere (perFrameItem pf idx) sh[0]? (m.Get a.MetaInstance tag) tag →
      ∃ v, a.Get idx tag = some v ∧ v.IsValid = true) := by
  constructor
  · intro habs
    by_cases ht : tag = DC.NumberOfFrames
    · refine ⟨Value.invalid, ?_, rfl⟩
      unfold Adapter.Get
      simp [h.hPerFrame, ht, h.hNullValue]
    · refine ⟨_, Get_eq_getPrecedence a m pf sh h idx tag ht, ?_⟩
      have hn := not_presentSomewhere_of_absentEverywhere _ _ _ _ habs
      rw [← getPrecedence_isValid] at hn
      simpa [perFrameItem] using hn
  · intro ht hpres
    refine ⟨_, Get_eq_getPrecedence a m pf sh h idx tag ht, ?_⟩
    exact (getPrecedence_isValid _ _ _ _).2 hpres

/-- Witness of C2: in the example, an attribute that is nowhere gives an
invalid value at frame 1, and `tagA` gives a valid one. -/
theorem C2_Get_invalid_iff_absent_witness :
    (∃ v, Example.adapter.Get 1 Example.ptag = some v ∧ v.IsValid = false) ∧
    (∃ v, Example.adapter.Get 1 Example.tagA = some v ∧ v.IsValid = true) :=
  ⟨(C2_Get_invalid_iff_absent Example.adapter Example.store [Example.pfItem0, Example.pfItem1]
      [Example.shItem0] ⟨rfl, rfl, rfl, rfl⟩ 1 Example.ptag).1
      ⟨rfl, rfl, by decide, by decide, rfl⟩,
   (C2_Get_invalid_iff_absent Example.adapter Example.store [Example.pfItem0, Example.pfItem1]
      [Example.shItem0] ⟨rfl, rfl, rfl, rfl⟩ 1 Example.tagA).2 (by decide) (Or.inl rfl)⟩

/-- C3: in per-frame mode, for every frame index, `Get` of NumberOfFrames is
an invalid value and `Has` of NumberOfFrames is false, whatever the store
and the per-frame and shared items hold. -/
theorem C3_Get_NumberOfFrames_hidden (a : Adapter) (m : MetaData) (pf sh : List Item)
    (h : PerFrameMode a m pf sh) (idx : Int) :
    a.Get idx DC.NumberOfFrames = some Value.invalid ∧
    a.Has DC.NumberOfFrames = some false := by
  have hg : ∀ i : Int, a.Get i DC.NumberOfFrames = some Value.invalid := by
    intro i
    unfold Adapter.Get
    simp [h.hPerFrame, h.hNullValue]
  refine ⟨hg idx, ?_⟩
  unfold Adapter.Has
  rw [hg 0]
  rfl

/-- Witness of C3: in the example the store holds a valid NumberOfFrames,
and the adapter hides it at frame 1. -/
theorem C3_Get_NumberOfFrames_hidden_witness :
    (Example.store.Get 0 DC.NumberOfFrames).IsValid = true ∧
    Example.adapter.Get 1 DC.NumberOfFrames = some Value.invalid ∧
    Example.adapter.Has DC.NumberOfFrames = some false :=
  ⟨rfl, C3_Get_NumberOfFrames_hidden Example.adapter Example.store
    [Example.pfItem0, Example.pfItem1] [Example.shItem0] ⟨rfl, rfl, rfl, rfl⟩ 1⟩

/-- C4, as stated, fails for NumberOfFrames: per-frame item 0 sets
NumberOfFrames directly to a valid value, and `Get` at frame 0 returns the
invalid value instead. -/
theorem C4_counterexample :
    PerFrameMode Example.nofDirectAdapter Example.emptyStore [Example.nofItem] [Item.mk []] ∧
    Example.nofItem.Get DC.NumberOfFrames = Value.data [9] ∧
    (Example.nofItem.Get DC.NumberOfFrames).IsValid = true ∧
    Example.nofDirectAdapter.Get 0 DC.NumberOfFrames = some Value.invalid ∧
    Example.nofDirectAdapter.Get 0 DC.NumberOfFrames ≠
      some (Example.nofItem.Get DC.NumberOfFrames) := by
  refine ⟨⟨rfl, rfl, rfl, rfl⟩, rfl, rfl, rfl, ?_⟩
  intro hEq
  have h2 : some Value.invalid = some (Value.data [9]) := hEq
  injection h2 with h3
  cases h3

/-- C4, amended: in per-frame mode, for every frame with a per-frame item
and every tag other than NumberOfFrames (in a public or a private group), a
valid value set directly in the per-frame item of the frame is what `Get`
returns, whatever the shared item and the store hold. -/
theorem C4_Get_direct_perFrame (a : Adapter) (m : MetaData) (pf sh : List Item)
    (h : PerFrameMode a m pf sh) (idx : Int) (it : Item) (tag : Tag)
    (h0 : 0 ≤ idx) (h1 : idx < 2147483648) (hit : pf[idx.toNat]? = some it)
    (ht : tag ≠ DC.NumberOfFrames) (hv : (it.Get tag).IsValid = true) :
    a.Get idx tag = some (it.Get tag) := by
  rw [Get_at_frame a m pf sh h idx it tag h0 h1 hit ht]
  simp [Spec.getPrecedence, firstValid, directHit, hv]

/-- Witness of C4: in the example `tagA` is set in per-frame item 1, in the
shared item and in the store, and frame 1 gives the per-frame value. -/
theorem C4_Get_direct_perFrame_witness :
    Example.adapter.Get 1 Example.tagA = some (Value.data [6]) :=
  C4_Get_direct_perFrame Example.adapter Example.store [Example.pfItem0, Example.pfItem1]
    [Example.shItem0] ⟨rfl, rfl, rfl, rfl⟩ 1 Example.pfItem1 Example.tagA
    (by decide) (by decide) rfl (by decide) rfl

/-- C5, as stated, fails for NumberOfFrames: it is nested under a public
element of shared item 0 (value 7) and under a private element of per-frame
item 0 (value 8) and is nowhere else, and `Get` at frame 0 returns the
invalid value instead of the shared item's value. -/
theorem C5_counterexample :
    PerFrameMode Example.nofNestedAdapter Example.emptyStore [Example.nofPrivItem]
      [Example.nofPubItem] ∧
    nestedHit true (some Example.nofPubItem) DC.NumberOfFrames = Value.data [7] ∧
    nestedHit false (some Example.nofPrivItem) DC.NumberOfFrames = Value.data [8] ∧
    (Example.nofPrivItem.Get DC.NumberOfFrames).IsValid = false ∧
    (Example.nofPubItem.Get DC.NumberOfFrames).IsValid = false ∧
    (Example.emptyStore.Get 0 DC.NumberOfFrames).IsValid = false ∧
    Example.nofNestedAdapter.Get 0 DC.NumberOfFrames = some Value.invalid ∧
    Example.nofNestedAdapter.Get 0 DC.NumberOfFrames ≠ some (Value.data [7]) := by
  refine ⟨⟨rfl, rfl, rfl, rfl⟩, rfl, rfl, rfl, rfl, rfl, rfl, ?_⟩
  intro hEq
  have h2 : some Value.invalid = some (Value.data [7]) := hEq
  injection h2 with h3
  cases h3

/-- C5, amended: in per-frame mode, for every frame with a per-frame item
and every tag other than NumberOfFrames: if the tag has a valid value nested
(in the single Item of a one-item sequence) under a public element `eS` of
shared item 0 and under a private element `eP` of the per-frame item, and is
absent everywhere else (not directly in either item, not under any other
element, not in the store), then `Get` returns the value nested under `eS`. -/
theorem C5_Get_shared_public_over_private (a : Adapter) (m : MetaData) (pf sh : List Item)
    (h : PerFrameMode a m pf sh) (idx : Int) (pfIt shIt : Item) (eP eS : DataElement)
    (tag : Tag) (h0 : 0 ≤ idx) (h1 : idx < 2147483648)
    (hpf : pf[idx.toNat]? = some pfIt) (hsh : sh[0]? = some shIt)
    (ht : tag ≠ DC.NumberOfFrames)
    (hS : eS ∈ shIt.elements) (hSpub : eS.GetTag.isPublic = true)
    (hSv : (nestedValue eS tag).IsValid = true)
    (_hP : eP ∈ pfIt.elements) (hPpriv : eP.GetTag.isPublic = false)
    (_hPv : (nestedValue eP tag).IsValid = true)
    (hpfDirect : (pfIt.Get tag).IsValid = false)
    (hshDirect : (shIt.Get tag).IsValid = false)
    (hpfOther : ∀ e ∈ pfIt.elements, e ≠ eP → (nestedValue e tag).IsValid = false)
    (hshOther : ∀ e ∈ shIt.elements, e ≠ eS → (nestedValue e tag).IsValid = false)
    (_hbase : (m.Get a.MetaInstance tag).IsValid = false) :
    a.Get idx tag = some (nestedValue eS tag) := by
  rw [Get_at_frame a m pf sh h idx pfIt tag h0 h1 hpf ht, hsh]
  have hn1 : (nestedHit true (some pfIt) tag).IsValid = false := by
    apply nestedHit_not_isValid
    intro e he hpub
    apply hpfOther e he
    intro heq
    rw [heq, hPpriv] at hpub
    exact absurd hpub (by simp)
  have hn2v : (nestedHit true (some shIt) tag).IsValid = true :=
    (nestedHit_isValid true (some shIt) tag).2 ⟨eS, hS, hSpub, hSv⟩
  have hn2 : nestedHit true (some shIt) tag = nestedValue eS tag := by
    obtain ⟨e, he, _, heq⟩ := nestedHitIn_eq_of_isValid true shIt.elements tag hn2v
    have hee : e = eS := by
      by_contra hne
      have hinv := hshOther e he hne
      have hval : (nestedValue e tag).IsValid = true := by
        rw [← heq]; exact hn2v
      rw [hinv] at hval
      exact absurd hval (by simp)
    rw [← hee]
    exact heq
  rw [← hn2]
  simp [Spec.getPrecedence, firstValid, directHit, hpfDirect, hshDirect, hn1, hn2v]

/-- Witness of C5: in the example `tagB` is nested under a public element of
the shared item (value 11) and under a private element of per-frame item 0
(value 12); frame 0 gives 11. -/
theorem C5_Get_shared_public_over_private_witness :
    Example.adapter.Get 0 Example.tagB = some (Value.data [11]) :=
  C5_Get_shared_public_over_private Example.adapter Example.store
    [Example.pfItem0, Example.pfItem1] [Example.shItem0] ⟨rfl, rfl, rfl, rfl⟩ 0
    Example.pfItem0 Example.shItem0
    (DataElement.mk Example.privSeq (Value.seq [Example.privNested]))
    (DataElement.mk Example.pubSeq (Value.seq [Example.pubNested]))
    Example.tagB (by decide) (by decide) rfl rfl (by decide)
    (by simp [Example.shItem0, Item.elements]) rfl rfl
    (by simp [Example.pfItem0, Item.elements]) rfl rfl rfl rfl
    (by
      intro e he hne
      simp only [Example.pfItem0, Item.elements, List.mem_cons, List.mem_singleton,
        List.not_mem_nil, or_false] at he
      rcases he with rfl | rfl
      · rfl
      · exact absurd rfl hne)
    (by
      intro e he hne
      simp only [Example.shItem0, Item.elements, List.mem_cons, List.mem_singleton,
        List.not_mem_nil, or_false] at he
      rcases he with rfl | rfl
      · rfl
      · exact absurd rfl hne)
    rfl

/-- C6, as stated, fails for NumberOfFrames: it is nested under a private
element of per-frame item 0 (value 8) and is nowhere else, and `Get` at
frame 0 returns the invalid value instead of the private-nested value. -/
theorem C6_counterexample :
    PerFrameMode Example.nofPrivateAdapter Example.emptyStore [Example.nofPrivItem]
      [Item.mk []] ∧
    nestedHit false (some Example.nofPrivItem) DC.NumberOfFrames = Value.data [8] ∧
    nestedHit true (some Example.nofPrivItem) DC.NumberOfFrames = Value.invalid ∧
    (Example.nofPrivItem.Get DC.NumberOfFrames).IsValid = false ∧
    (Example.emptyStore.Get 0 DC.NumberOfFrames).IsValid = false ∧
    Example.nofPrivateAdapter.Get 0 DC.NumberOfFrames = some Value.invalid ∧
    Example.nofPrivateAdapter.Get 0 DC.NumberOfFrames ≠ some (Value.data [8]) := by
  refine ⟨⟨rfl, rfl, rfl, rfl⟩, rfl, rfl, rfl, rfl, rfl, ?_⟩
  intro hEq
  have h2 : some Value.invalid = some (Value.data [8]) := hEq
  injection h2 with h3
  cases h3

/-- C6, amended: in per-frame mode, for every frame with a per-frame item
and every tag other than NumberOfFrames: if the tag has a valid value nested
under a private element of the per-frame item, and is absent from the
per-frame item itself, from every public nesting, from shared item 0 and
from the store, then `Get` returns the private-nested value of the first
private element, in element order, that holds a valid one. -/
theorem C6_Get_private_last_resort (a : Adapter) (m : MetaData) (pf sh : List Item)
    (h : PerFrameMode a m pf sh) (idx : Int) (pfIt : Item) (tag : Tag)
    (h0 : 0 ≤ idx) (h1 : idx < 2147483648) (hpf : pf[idx.toNat]? = some pfIt)
    (ht : tag ≠ DC.NumberOfFrames)
    (hpriv : ∃ e ∈ pfIt.elements, e.GetTag.isPublic = false ∧
      (nestedValue e tag).IsValid = true)
    (hpfDirect : (pfIt.Get tag).IsValid = false)
    (hpfPublic : ∀ e ∈ pfIt.elements, e.GetTag.isPublic = true →
      (nestedValue e tag).IsValid = false)
    (hshDirect : (directHit sh[0]? tag).IsValid = false)
    (hshNested : ∀ e ∈ sourceElements sh[0]?, (nestedValue e tag).IsValid = false)
    (hbase : (m.Get a.MetaInstance tag).IsValid = false) :
    ∃ pre e post, pfIt.elements = pre ++ e :: post ∧
      e.GetTag.isPublic = false ∧ (nestedValue e tag).IsValid = true ∧
      (∀ x ∈ pre, x.GetTag.isPublic = false → (nestedValue x tag).IsValid = false) ∧
      a.Get idx tag = some (nestedValue e tag) := by
  have hp1 : (nestedHit false (some pfIt) tag).IsValid = true :=
    (nestedHit_isValid false (some pfIt) tag).2 hpriv
  obtain ⟨pre, e, post, hes, hep, hev, heq, hpre⟩ :=
    nestedHitIn_first false pfIt.elements tag hp1
  refine ⟨pre, e, post, hes, hep, hev, hpre, ?_⟩
  rw [Get_at_frame a m pf sh h idx pfIt tag h0 h1 hpf ht]
  have hn1 : (nestedHit true (some pfIt) tag).IsValid = false :=
    nestedHit_not_isValid true (some pfIt) tag hpfPublic
  have hn2 : (nestedHit true sh[0]? tag).IsValid = false :=
    nestedHit_not_isValid true sh[0]? tag (fun x hx _ => hshNested x hx)
  have heq2 : nestedHit false (some pfIt) tag = nestedValue e tag := heq
  rw [← heq2]
  have hd1 : (directHit (some pfIt) tag).IsValid = false := hpfDirect
  simp [Spec.getPrecedence, firstValid, hd1, hshDirect, hn1, hn2, hbase, hp1]

/-- Witness of C6: in the example `tagC` is nested under the private element
of per-frame item 0 only, and frame 0 gives that value. -/
theorem C6_Get_private_last_resort_witness :
    ∃ pre e post, Example.pfItem0.elements = pre ++ e :: post ∧
      e.GetTag.isPublic = false ∧ (nestedValue e Example.tagC).IsValid = true ∧
      (∀ x ∈ pre, x.GetTag.isPublic = false →
        (nestedValue x Example.tagC).IsValid = false) ∧
      Example.adapter.Get 0 Example.tagC = some (nestedValue e Example.tagC) :=
  C6_Get_private_last_resort Example.adapter Example.store
    [Example.pfItem0, Example.pfItem1] [Example.shItem0] ⟨rfl, rfl, rfl, rfl⟩ 0
    Example.pfItem0 Example.tagC (by decide) (by decide) rfl (by decide)
    ⟨DataElement.mk Example.privSeq (Value.seq [Example.privNested]),
      by simp [Example.pfItem0, Item.elements], rfl, rfl⟩
    rfl
    (by
      intro e he hpub
      simp only [Example.pfItem0, Item.elements, List.mem_cons, List.mem_singleton,
        List.not_mem_nil, or_false] at he
      rcases he with rfl | rfl
      · rfl
      · exact absurd hpub (by decide))
    rfl
    (by
      intro e he
      simp only [sourceElements, Example.shItem0, Item.elements, List.getElem?_cons_zero,
        List.mem_cons, List.mem_singleton, List.not_mem_nil, or_false] at he
      rcases he with rfl | rfl <;> rfl)
    rfl

/-- C7: in per-frame mode, for every frame index and every tag other than
NumberOfFrames: when the per-frame item of the frame and shared item 0 give
no direct hit and no public-nested hit and the store holds a valid value for
the tag at the base instance, `Get` returns the store's value, whatever the
private sequence elements of the two items hold. -/
theorem C7_Get_base_over_private (a : Adapter) (m : MetaData) (pf sh : List Item)
    (h : PerFrameMode a m pf sh) (idx : Int) (tag : Tag)
    (ht : tag ≠ DC.NumberOfFrames)
    (hpfDirect : (directHit (perFrameItem pf idx) tag).IsValid = false)
    (hpfPublic : ∀ e ∈ sourceElements (perFrameItem pf idx), e.GetTag.isPublic = true →
      (nestedValue e tag).IsValid = false)
    (hshDirect : (directHit sh[0]? tag).IsValid = false)
    (hshPublic : ∀ e ∈ sourceElements sh[0]?, e.GetTag.isPublic = true →
      (nestedValue e tag).IsValid = false)
    (hbase : (m.Get a.MetaInstance tag).IsValid = true) :
    a.Get idx tag = some (m.Get a.MetaInstance tag) := by
  rw [Get_eq_getPrecedence a m pf sh h idx tag ht]
  congr 1
  exact getPrecedence_eq_base _ _ _ _ hpfDirect
    (nestedHit_not_isValid true _ tag hpfPublic) hshDirect
    (nestedHit_not_isValid true _ tag hshPublic) (Or.inl hbase)

/-- Witness of C7: in the example `tagD` is nested under the private element
of per-frame item 0 (value 31) and set in the store (value 32); frame 0
gives 32. -/
theorem C7_Get_base_over_private_witness :
    nestedHit false (perFrameItem [Example.pfItem0, Example.pfItem1] 0) Example.tagD
      = Value.data [31] ∧
    Example.adapter.Get 0 Example.tagD = some (Value.data [32]) :=
  ⟨rfl, C7_Get_base_over_private Example.adapter Example.store
    [Example.pfItem0, Example.pfItem1] [Example.shItem0] ⟨rfl, rfl, rfl, rfl⟩ 0
    Example.tagD (by decide) rfl
    (by
      intro e he hpub
      have he2 : e ∈ Example.pfItem0.elements := he
      simp only [Example.pfItem0, Item.elements, List.mem_cons, List.mem_singleton,
        List.not_mem_nil, or_false] at he2
      rcases he2 with rfl | rfl
      · rfl
      · exact absurd hpub (by decide))
    rfl
    (by
      intro e he _
      have he2 : e ∈ Example.shItem0.elements := he
      simp only [Example.shItem0, Item.elements, List.mem_cons, List.mem_singleton,
        List.not_mem_nil, or_false] at he2
      rcases he2 with rfl | rfl <;> rfl)
    rfl⟩

/-- C8: in per-frame mode, for every tag other than NumberOfFrames that is
not directly in, and not nested inside, any per-frame or shared item, `Get`
returns the store's value at the base instance for every frame index: the
result does not depend on the frame. -/
theorem C8_Get_base_only (a : Adapter) (m : MetaData) (pf sh : List Item)
    (h : PerFrameMode a m pf sh) (tag : Tag) (ht : tag ≠ DC.NumberOfFrames)
    (hpf : ∀ it ∈ pf, (it.Get tag).IsValid = false ∧
      ∀ e ∈ it.elements, (nestedValue e tag).IsValid = false)
    (hsh : ∀ it ∈ sh, (it.Get tag).IsValid = false ∧
      ∀ e ∈ it.elements, (nestedValue e tag).IsValid = false)
    (idx : Int) :
    a.Get idx tag = some (m.Get a.MetaInstance tag) := by
  rw [Get_eq_getPrecedence a m pf sh h idx tag ht]
  congr 1
  obtain ⟨hd1, hn1⟩ := source_absent_of_all pf (toUnsigned idx) tag hpf
  obtain ⟨hd2, hn2⟩ := source_absent_of_all sh 0 tag hsh
  exact getPrecedence_eq_base _ _ _ _ hd1
    (nestedHit_not_isValid true _ tag (fun e he _ => hn1 e he)) hd2
    (nestedHit_not_isValid true _ tag (fun e he _ => hn2 e he))
    (Or.inr ⟨nestedHit_not_isValid false _ tag (fun e he _ => hn1 e he),
      nestedHit_not_isValid false _ tag (fun e he _ => hn2 e he)⟩)

/-- Witness of C8: in the example `tagE` is set in the store only (value
41), and frame 1 gives that value. -/
theorem C8_Get_base_only_witness :
    Example.adapter.Get 1 Example.tagE = some (Value.data [41]) :=
  C8_Get_base_only Example.adapter Example.store
    [Example.pfItem0, Example.pfItem1] [Example.shItem0] ⟨rfl, rfl, rfl, rfl⟩
    Example.tagE (by decide)
    (by
      intro it hit
      simp only [List.mem_cons, List.mem_singleton, List.not_mem_nil, or_false] at hit
      rcases hit with rfl | rfl
      · refine ⟨rfl, ?_⟩
        intro e he
        simp only [Example.pfItem0, Item.elements, List.mem_cons, List.mem_singleton,
          List.not_mem_nil, or_false] at he
        rcases he with rfl | rfl <;> rfl
      · refine ⟨rfl, ?_⟩
        intro e he
        simp only [Example.pfItem1, Item.elements, List.mem_cons, List.mem_singleton,
          List.not_mem_nil, or_false] at he
        rcases he with rfl
        rfl)
    (by
      intro it hit
      simp only [List.mem_cons, List.mem_singleton, List.not_mem_nil, or_false] at hit
      rcases hit with rfl
      refine ⟨rfl, ?_⟩
      intro e he
      simp only [Example.shItem0, Item.elements, List.mem_cons, List.mem_singleton,
        List.not_mem_nil, or_false] at he
      rcases he with rfl | rfl <;> rfl)
    1

/-- C9: in flat mode, for every frame index, tag, private tag and creator,
`Get` is the store's value and `ResolvePrivateTag` the store's resolution at
the instance frame + base instance, the sum being the 32-bit `int` sum of
the code; whenever that sum is representable it is the instance
`idx + MetaInstance` itself.  The Shared member is not consulted and
NumberOfFrames is looked up as any other tag. -/
theorem C9_flat_mode_delegates (resolve : Item → Tag → String → Tag) (a : Adapter)
    (m : MetaData) (h : FlatMode a m) (idx : Int) (tag ptag : Tag) (creator : String) :
    (a.Get idx tag = some (m.Get (addInt32 idx a.MetaInstance) tag) ∧
      a.ResolvePrivateTag resolve idx ptag creator =
        some (m.ResolvePrivateTag (addInt32 idx a.MetaInstance) ptag creator)) ∧
    (-2147483648 ≤ idx + a.MetaInstance → idx + a.MetaInstance < 2147483648 →
      a.Get idx tag = some (m.Get (idx + a.MetaInstance) tag) ∧
      a.ResolvePrivateTag resolve idx ptag creator =
        some (m.ResolvePrivateTag (idx + a.MetaInstance) ptag creator)) := by
  refine ⟨⟨Get_of_flat a m h idx tag,
    ResolvePrivateTag_of_flat resolve a m h idx ptag creator⟩, ?_⟩
  intro hlo hhi
  rw [Get_of_flat a m h idx tag, ResolvePrivateTag_of_flat resolve a m h idx ptag creator,
    addInt32_of_inRange idx a.MetaInstance hlo hhi]
  exact ⟨rfl, rfl⟩

/-- Witness of C9: the flat example adapter returns the store's
NumberOfFrames at frame 0; the adapter built for instance 1 of the index
store asks instance 1 at frame 0 and, the `int` sum wrapping, instance
-2147483648 at frame 2147483647. -/
theorem C9_flat_mode_delegates_witness :
    (Example.flatAdapter.Get 0 DC.NumberOfFrames = some (Value.data [2]) ∧
      Example.flatAdapter.ResolvePrivateTag Example.resolve 0 Example.ptag "ACME" =
        some Tag.unresolved) ∧
    (Adapter.constructAt (some Example.indexStore) 1).Get 0 Example.tagA =
      some (Value.data [1]) ∧
    (Adapter.constructAt (some Example.indexStore) 1).Get 2147483647 Example.tagA =
      some (Value.data [-2147483648]) :=
  ⟨(C9_flat_mode_delegates Example.resolve Example.flatAdapter Example.store ⟨rfl, rfl⟩ 0
      DC.NumberOfFrames Example.ptag "ACME").2 (by decide) (by decide),
   ((C9_flat_mode_delegates Example.resolve (Adapter.constructAt (some Example.indexStore) 1)
      Example.indexStore ⟨rfl, rfl⟩ 0 Example.tagA Example.ptag "ACME").2
      (by decide) (by decide)).1,
   ((C9_flat_mode_delegates Example.resolve (Adapter.constructAt (some Example.indexStore) 1)
      Example.indexStore ⟨rfl, rfl⟩ 2147483647 Example.tagA Example.ptag "ACME").1.1).trans
      rfl⟩

/-- C10: in per-frame mode, for every frame with a per-frame item, private
tag and creator, `ResolvePrivateTag` returns the first accepted resolution
in the order per-frame direct, per-frame nested public, shared direct,
shared nested public, base store, nested private of the per-frame item,
nested private of the shared item, and the unresolved sentinel when there is
none; a resolution inside an Item is accepted only when that Item holds a
valid value for the resolved tag, the store's whenever it is not the
sentinel. -/
theorem C10_ResolvePrivateTag_precedence (resolve : Item → Tag → String → Tag)
    (a : Adapter) (m : MetaData) (pf sh : List Item) (h : PerFrameMode a m pf sh)
    (idx : Int) (it : Item) (ptag : Tag) (creator : String)
    (h0 : 0 ≤ idx) (h1 : idx < 2147483648) (hit : pf[idx.toNat]? = some it) :
    a.ResolvePrivateTag resolve idx ptag creator =
      some (firstResolved
        [directResolved resolve (some it) ptag creator,
         nestedResolved resolve true (some it) ptag creator,
         directResolved resolve sh[0]? ptag creator,
         nestedResolved resolve true sh[0]? ptag creator,
         m.ResolvePrivateTag a.MetaInstance ptag creator,
         nestedResolved resolve false (some it) ptag creator,
         nestedResolved resolve false sh[0]? ptag creator]) := by
  have hg := ResolvePrivateTag_eq_resolvePrecedence resolve a m pf sh h idx ptag creator
  rw [toUnsigned_of_nonneg idx h0 h1, hit] at hg
  exact hg

/-- Witness of C10: in the example the creator "ACME" resolves `ptag` in
every item, only the item nested under the private element of per-frame
item 0 holds a value for the resolved tag, and frame 0 gives that tag. -/
theorem C10_ResolvePrivateTag_precedence_witness :
    Example.adapter.ResolvePrivateTag Example.resolve 0 Example.ptag "ACME" =
      some Example.resolvedTag :=
  (C10_ResolvePrivateTag_precedence Example.resolve Example.adapter Example.store
    [Example.pfItem0, Example.pfItem1] [Example.shItem0] ⟨rfl, rfl, rfl, rfl⟩ 0
    Example.pfItem0 Example.ptag "ACME" (by decide) (by decide) rfl).trans (by decide)

/-! ## Lemmas for the later claims -/

theorem firstResolved_eq_unresolved (l : List Tag) (h : ∀ t ∈ l, t = Tag.unresolved) :
    firstResolved l = Tag.unresolved := by
  induction l with
  | nil => rfl
  | cons t ts ih =>
    have ht : t = Tag.unresolved := h t (List.mem_cons_self _ _)
    have hts : ∀ x ∈ ts, x = Tag.unresolved := fun x hx => h x (List.mem_cons_of_mem _ hx)
    simp [firstResolved, ht, ih hts]

theorem firstResolved_mem (l : List Tag) (h : firstResolved l ≠ Tag.unresolved) :
    firstResolved l ∈ l := by
  induction l with
  | nil => exact absurd rfl h
  | cons t ts ih =>
    by_cases ht : t = Tag.unresolved
    · have hstep : firstResolved (t :: ts) = firstResolved ts := by simp [firstResolved, ht]
      rw [hstep] at h ⊢
      exact List.mem_cons_of_mem _ (ih h)
    · have hstep : firstResolved (t :: ts) = t := by simp [firstResolved, ht]
      rw [hstep]
      exact List.mem_cons_self _ _

theorem nestedResolution_eq_unresolved (resolve : Item → Tag → String → Tag)
    (e : DataElement) (ptag : Tag) (creator : String)
    (h : ∀ item, nestedItem e = some item → resolve item ptag creator = Tag.unresolved) :
    nestedResolution resolve e ptag creator = Tag.unresolved := by
  cases e with
  | mk t v =>
    cases v with
    | invalid => rfl
    | data vals => rfl
    | seq items =>
      rcases items with _ | ⟨item, _ | ⟨item2, more⟩⟩
      · rfl
      · have hr := h item rfl
        simp [nestedResolution, DataElement.GetValue, acceptedIn, hr]
      · rfl

theorem nestedResolved_eq_unresolved (resolve : Item → Tag → String → Tag) (pub : Bool)
    (src : Option Item) (ptag : Tag) (creator : String)
    (h : ∀ e ∈ sourceElements src, ∀ item, nestedItem e = some item →
      resolve item ptag creator = Tag.unresolved) :
    nestedResolved resolve pub src ptag creator = Tag.unresolved := by
  cases src with
  | none => rfl
  | some it =>
    unfold nestedResolved nestedResolvedIn
    apply firstResolved_eq_unresolved
    intro t ht
    rw [List.mem_map] at ht
    obtain ⟨e, he, rfl⟩ := ht
    exact nestedResolution_eq_unresolved resolve e ptag creator
      (h e (List.mem_of_mem_filter he))

theorem directResolved_eq_unresolved (resolve : Item → Tag → String → Tag)
    (src : Option Item) (ptag : Tag) (creator : String)
    (h : ∀ it, src = some it → resolve it ptag creator = Tag.unresolved) :
    directResolved resolve src ptag creator = Tag.unresolved := by
  cases src with
  | none => rfl
  | some it => simp [directResolved, acceptedIn, h it rfl]

theorem directHit_of_directResolved (resolve : Item → Tag → String → Tag)
    (src : Option Item) (ptag : Tag) (creator : String)
    (h : directResolved resolve src ptag creator ≠ Tag.unresolved) :
    (directHit src (directResolved resolve src ptag creator)).IsValid = true := by
  cases src with
  | none => exact absurd rfl h
  | some it =>
    have h2 : acceptedIn resolve it ptag creator ≠ Tag.unresolved := h
    have h3 := acceptedIn_of_ne resolve it ptag creator h2
    have h4 := (acceptedIn_ne_iff resolve it ptag creator).1 h2
    simp only [directResolved, directHit, h3]
    exact h4.2

theorem nestedValue_of_nestedResolution (resolve : Item → Tag → String → Tag)
    (e : DataElement) (ptag : Tag) (creator : String)
    (h : nestedResolution resolve e ptag creator ≠ Tag.unresolved) :
    (nestedValue e (nestedResolution resolve e ptag creator)).IsValid = true := by
  cases e with
  | mk t v =>
    cases v with
    | invalid => exact absurd rfl h
    | data vals => exact absurd rfl h
    | seq items =>
      rcases items with _ | ⟨item, _ | ⟨item2, more⟩⟩
      · exact absurd rfl h
      · have h2 : acceptedIn resolve item ptag creator ≠ Tag.unresolved := h
        have h3 := acceptedIn_of_ne resolve item ptag creator h2
        have h4 := (acceptedIn_ne_iff resolve item ptag creator).1 h2
        simp only [nestedResolution, nestedValue, DataElement.GetValue, h3]
        exact h4.2
      · exact absurd rfl h

theorem nestedValue_of_nestedResolved (resolve : Item → Tag → String → Tag) (pub : Bool)
    (src : Option Item) (ptag : Tag) (creator : String)
    (h : nestedResolved resolve pub src ptag creator ≠ Tag.unresolved) :
    ∃ e ∈ sourceElements src,
      (nestedValue e (nestedResolved resolve pub src ptag creator)).IsValid = true := by
  cases src with
  | none => exact absurd rfl h
  | some it =>
    have hmem := firstResolved_mem _ h
    rw [List.mem_map] at hmem
    obtain ⟨e, he, heq⟩ := hmem
    refine ⟨e, List.mem_of_mem_filter he, ?_⟩
    have heq2 : nestedResolution resolve e ptag creator =
        nestedResolved resolve pub (some it) ptag creator := heq
    rw [← heq2]
    apply nestedValue_of_nestedResolution
    rw [heq2]
    exact h

theorem metaInstance_eq_max (i : Int) : (if i ≥ 0 then i else 0) = max i 0 := by
  by_cases h : i ≥ 0
  · simp [h]
  · have h2 : i ≤ 0 := by omega
    simp [h, max_eq_right h2]

theorem validPtr_iff (p : Option Value) :
    validPtr p = true ↔ ∃ v, p = some v ∧ v.IsValid = true := by
  cases p with
  | none => simp [validPtr]
  | some v => simp [validPtr]

theorem bothGroupsValid_iff (m : MetaData) (k : Int) :
    BothGroupsValid m k ↔
      (validPtr (groupValue m DC.SharedFunctionalGroupsSequence k) &&
        validPtr (groupValue m DC.PerFrameFunctionalGroupsSequence k)) = true := by
  unfold BothGroupsValid
  rw [Bool.and_eq_true, validPtr_iff, validPtr_iff]

theorem ConstructionHelper_perFrame (m : MetaData) (i : Int)
    (h : BothGroupsValid m (max i 0)) :
    Adapter.ConstructionHelper (some m) i =
      { Meta := some m,
        PerFrame := groupValue m DC.PerFrameFunctionalGroupsSequence (max i 0),
        Shared := groupValue m DC.SharedFunctionalGroupsSequence (max i 0),
        NullValue := some Value.invalid,
        NumberOfInstances := (m.Get (max i 0) DC.NumberOfFrames).AsInt,
        MetaInstance := max i 0 } := by
  have hb := (bothGroupsValid_iff m (max i 0)).1 h
  unfold Adapter.ConstructionHelper
  simp only [metaInstance_eq_max, hb, if_true]

theorem ConstructionHelper_flat (m : MetaData) (i : Int)
    (h : ¬ BothGroupsValid m (max i 0)) :
    Adapter.ConstructionHelper (some m) i =
      { Meta := some m, PerFrame := none, Shared := none, NullValue := none,
        NumberOfInstances := if i < 0 then m.GetNumberOfInstances else 1,
        MetaInstance := max i 0 } := by
  have hb := (not_congr (bothGroupsValid_iff m (max i 0))).1 h
  unfold Adapter.ConstructionHelper
  simp only [metaInstance_eq_max, hb]
  simp

theorem ConstructionHelper_null (i : Int) :
    Adapter.ConstructionHelper none i =
      { Meta := none, PerFrame := none, Shared := none, NullValue := none,
        NumberOfInstances := 0, MetaInstance := max i 0 } := by
  unfold Adapter.ConstructionHelper
  simp only [metaInstance_eq_max]

/-- The mode invariant: the two group references and the owned invalid
value are all present, or all absent. -/
theorem ConstructionHelper_mode (meta : Option MetaData) (i : Int) :
    (∃ p q, (Adapter.ConstructionHelper meta i).PerFrame = some p ∧
        (Adapter.ConstructionHelper meta i).Shared = some q ∧
        (Adapter.ConstructionHelper meta i).NullValue = some Value.invalid) ∨
    ((Adapter.ConstructionHelper meta i).PerFrame = none ∧
        (Adapter.ConstructionHelper meta i).Shared = none ∧
        (Adapter.ConstructionHelper meta i).NullValue = none) := by
  cases meta with
  | none =>
    rw [ConstructionHelper_null]
    exact Or.inr ⟨rfl, rfl, rfl⟩
  | some m =>
    by_cases h : BothGroupsValid m (max i 0)
    · rw [ConstructionHelper_perFrame m i h]
      obtain ⟨⟨q, hq, _⟩, ⟨p, hp, _⟩⟩ := h
      exact Or.inl ⟨p, q, hp, hq, rfl⟩
    · rw [ConstructionHelper_flat m i h]
      exact Or.inr ⟨rfl, rfl, rfl⟩

theorem Produced_mode (r : Adapter) (h : Produced r) :
    (∃ p q, r.PerFrame = some p ∧ r.Shared = some q ∧ r.NullValue = some Value.invalid) ∨
    (r.PerFrame = none ∧ r.Shared = none ∧ r.NullValue = none) := by
  induction h with
  | construct meta => exact ConstructionHelper_mode meta (-1)
  | constructAt meta i => exact ConstructionHelper_mode meta i
  | copyConstruct r _ ih =>
    rcases ih with ⟨p, q, hp, hq, hn⟩ | ⟨hp, hq, hn⟩
    · exact Or.inl ⟨p, q, hp, hq, by simp [Adapter.copyConstruct, hn]⟩
    · exact Or.inr ⟨hp, hq, by simp [Adapter.copyConstruct, hn]⟩
  | assign t r _ _ _ ih =>
    rcases ih with ⟨p, q, hp, hq, hn⟩ | ⟨hp, hq, hn⟩
    · exact Or.inl ⟨p, q, hp, hq, by simp [Adapter.operatorAssign, hn]⟩
    · exact Or.inr ⟨hp, hq, by simp [Adapter.operatorAssign, hn]⟩
  | assignSelf r _ ih => exact ih

theorem copyConstruct_eq_self (r : Adapter) (h : Produced r) :
    Adapter.copyConstruct r = r := by
  rcases Produced_mode r h with ⟨p, q, _, _, hn⟩ | ⟨_, _, hn⟩
  · cases r
    simp only [Adapter.copyConstruct] at hn ⊢
    simp [hn]
  · cases r
    simp only [Adapter.copyConstruct] at hn ⊢
    simp [hn]

theorem operatorAssign_eq_other (t r : Adapter) (h : Produced r) :
    Adapter.operatorAssign t r false = r := by
  have hc := copyConstruct_eq_self r h
  unfold Adapter.copyConstruct at hc
  unfold Adapter.operatorAssign
  simpa using hc

theorem getElem?_none_of_le (l : List Item) (n : Nat) (h : l.length ≤ n) : l[n]? = none :=
  List.getElem?_eq_none h

theorem Get_defined (a : Adapter) (m : MetaData) (pf sh : List Item)
    (h : PerFrameMode a m pf sh) (idx : Int) (tag : Tag) : ∃ v, a.Get idx tag = some v := by
  by_cases ht : tag = DC.NumberOfFrames
  · refine ⟨Value.invalid, ?_⟩
    unfold Adapter.Get
    simp [h.hPerFrame, ht, h.hNullValue]
  · exact ⟨_, Get_eq_getPrecedence a m pf sh h idx tag ht⟩

theorem Get_of_skipped (a : Adapter) (m : MetaData) (pf sh : List Item)
    (h : PerFrameMode a m pf sh) (idx : Int) (tag : Tag)
    (hout : pf.length ≤ toUnsigned idx) :
    a.Get idx tag =
      if tag = DC.NumberOfFrames then some Value.invalid
      else some (Spec.getPrecedence none sh[0]? (m.Get a.MetaInstance tag) tag) := by
  by_cases ht : tag = DC.NumberOfFrames
  · rw [if_pos ht]
    unfold Adapter.Get
    simp [h.hPerFrame, ht, h.hNullValue]
  · rw [if_neg ht, Get_eq_getPrecedence a m pf sh h idx tag ht,
      getElem?_none_of_le pf _ hout]

theorem ResolvePrivateTag_of_skipped (resolve : Item → Tag → String → Tag) (a : Adapter)
    (m : MetaData) (pf sh : List Item) (h : PerFrameMode a m pf sh) (idx : Int)
    (ptag : Tag) (creator : String) (hout : pf.length ≤ toUnsigned idx) :
    a.ResolvePrivateTag resolve idx ptag creator =
      some (Spec.resolvePrecedence resolve none sh[0]?
        (m.ResolvePrivateTag a.MetaInstance ptag creator) ptag creator) := by
  rw [ResolvePrivateTag_eq_resolvePrecedence resolve a m pf sh h idx ptag creator,
    getElem?_none_of_le pf _ hout]

theorem toUnsigned_of_neg (idx : Int) (hlo : -2147483648 ≤ idx) (hneg : idx < 0) :
    toUnsigned idx = (idx + 4294967296).toNat ∧ 2147483648 ≤ toUnsigned idx := by
  unfold toUnsigned
  have hmod : idx % 4294967296 = idx + 4294967296 := by
    rw [← Int.add_mul_emod_self (a := idx) (b := 1) (c := 4294967296)]
    rw [Int.emod_eq_of_lt (by omega) (by omega)]
    ring
  rw [hmod]
  constructor
  · rfl
  · omega

/-! ## The claims on private tags, construction and lifetime -/

/-- C11: for every frame index, private tag and creator, when the creator
matches no private block in the searched sources, `ResolvePrivateTag`
returns the unresolved sentinel.  In per-frame mode the searched sources are
the per-frame item of the frame, shared item 0, every singly-nested Item of
those two items and the store at the base instance; in flat mode the one
searched source is the store at the instance frame + base instance (the
32-bit sum of the code). -/
theorem C11_ResolvePrivateTag_unresolved (resolve : Item → Tag → String → Tag)
    (a : Adapter) (m : MetaData) (idx : Int) (ptag : Tag) (creator : String) :
    (∀ pf sh, PerFrameMode a m pf sh →
      (∀ it, perFrameItem pf idx = some it → resolve it ptag creator = Tag.unresolved) →
      (∀ it, sh[0]? = some it → resolve it ptag creator = Tag.unresolved) →
      (∀ e ∈ sourceElements (perFrameItem pf idx), ∀ item, nestedItem e = some item →
        resolve item ptag creator = Tag.unresolved) →
      (∀ e ∈ sourceElements sh[0]?, ∀ item, nestedItem e = some item →
        resolve item ptag creator = Tag.unresolved) →
      m.ResolvePrivateTag a.MetaInstance ptag creator = Tag.unresolved →
      a.ResolvePrivateTag resolve idx ptag creator = some Tag.unresolved) ∧
    (FlatMode a m →
      m.ResolvePrivateTag (addInt32 idx a.MetaInstance) ptag creator = Tag.unresolved →
      a.ResolvePrivateTag resolve idx ptag creator = some Tag.unresolved) := by
  constructor
  · intro pf sh h hpf hsh hpfN hshN hbase
    rw [ResolvePrivateTag_eq_resolvePrecedence resolve a m pf sh h idx ptag creator]
    congr 1
    unfold Spec.resolvePrecedence
    apply firstResolved_eq_unresolved
    intro t ht
    simp only [List.mem_cons, List.mem_singleton, List.not_mem_nil, or_false] at ht
    rcases ht with rfl | rfl | rfl | rfl | rfl | rfl | rfl
    · exact directResolved_eq_unresolved resolve _ ptag creator hpf
    · exact nestedResolved_eq_unresolved resolve true _ ptag creator hpfN
    · exact directResolved_eq_unresolved resolve _ ptag creator hsh
    · exact nestedResolved_eq_unresolved resolve true _ ptag creator hshN
    · exact hbase
    · exact nestedResolved_eq_unresolved resolve false _ ptag creator hpfN
    · exact nestedResolved_eq_unresolved resolve false _ ptag creator hshN
  · intro h hbase
    rw [ResolvePrivateTag_of_flat resolve a m h idx ptag creator, hbase]

/-- Witness of C11: in the example no source knows the creator "OTHER", in
per-frame mode at frame 0 and in flat mode at frame 1, although the creator
"ACME" has allocations in both. -/
theorem C11_ResolvePrivateTag_unresolved_witness :
    Example.adapter.ResolvePrivateTag Example.resolve 0 Example.ptag "OTHER" =
      some Tag.unresolved ∧
    Example.seriesAdapter.ResolvePrivateTag Example.resolve 1 Example.ptag "OTHER" =
      some Tag.unresolved :=
  ⟨(C11_ResolvePrivateTag_unresolved Example.resolve Example.adapter Example.store 0
      Example.ptag "OTHER").1 [Example.pfItem0, Example.pfItem1] [Example.shItem0]
      ⟨rfl, rfl, rfl, rfl⟩ (fun _ _ => by simp [Example.resolve])
      (fun _ _ => by simp [Example.resolve]) (fun _ _ _ _ => by simp [Example.resolve])
      (fun _ _ _ _ => by simp [Example.resolve]) rfl,
   (C11_ResolvePrivateTag_unresolved Example.resolve Example.seriesAdapter
      Example.seriesStore 1 Example.ptag "OTHER").2 ⟨rfl, rfl⟩ (by decide)⟩

/-- C12, as stated, fails when the record carries both functional groups:
the example store holds a Shared and a PerFrame sequence, and construction
with the selector 0 yields per-frame mode and the frame count 2. -/
theorem C12_counterexample :
    (Adapter.constructAt (some Example.store) 0).PerFrame =
      some (Value.seq [Example.pfItem0, Example.pfItem1]) ∧
    (Adapter.constructAt (some Example.store) 0).Shared =
      some (Value.seq [Example.shItem0]) ∧
    (Adapter.constructAt (some Example.store) 0).NullValue = some Value.invalid ∧
    (Adapter.constructAt (some Example.store) 0).GetNumberOfInstances = 2 ∧
    (Adapter.constructAt (some Example.store) 0).GetNumberOfInstances ≠ 1 := by
  refine ⟨rfl, rfl, rfl, rfl, by decide⟩

/-- C12, amended: for every (non-absent) store and every selector i >= 0,
construction with (store, i) yields flat mode and the frame count 1 when the
Shared and PerFrame group values are not both found and valid at instance
i; when both are, it yields per-frame mode and the frame count is the
integer value of NumberOfFrames at instance i. -/
theorem C12_construct_single_instance (m : MetaData) (i : Int) (hi : 0 ≤ i) :
    (¬ BothGroupsValid m i →
      FlatMode (Adapter.constructAt (some m) i) m ∧
      (Adapter.constructAt (some m) i).Shared = none ∧
      (Adapter.constructAt (some m) i).NullValue = none ∧
      (Adapter.constructAt (some m) i).GetNumberOfInstances = 1) ∧
    (BothGroupsValid m i →
      (∃ p q, (Adapter.constructAt (some m) i).PerFrame = some p ∧
        (Adapter.constructAt (some m) i).Shared = some q) ∧
      (Adapter.constructAt (some m) i).NullValue = some Value.invalid ∧
      (Adapter.constructAt (some m) i).GetNumberOfInstances =
        (m.Get i DC.NumberOfFrames).AsInt) := by
  have hmax : max i 0 = i := max_eq_left hi
  constructor
  · intro h
    have hf := ConstructionHelper_flat m i (by rw [hmax]; exact h)
    unfold Adapter.constructAt Adapter.GetNumberOfInstances
    rw [hf]
    have hlt : ¬ i < 0 := by omega
    exact ⟨⟨rfl, rfl⟩, rfl, rfl, by simp [hlt]⟩
  · intro h
    have hp := ConstructionHelper_perFrame m i (by rw [hmax]; exact h)
    unfold Adapter.constructAt Adapter.GetNumberOfInstances
    rw [hp, hmax]
    obtain ⟨⟨q, hq, _⟩, ⟨p, hpv, _⟩⟩ := h
    exact ⟨⟨p, q, hpv, hq⟩, rfl, rfl⟩

/-- Witness of C12: the series store has no functional groups, and
construction with the selector 1 gives flat mode and the frame count 1. -/
theorem C12_construct_single_instance_witness :
    FlatMode (Adapter.constructAt (some Example.seriesStore) 1) Example.seriesStore ∧
    (Adapter.constructAt (some Example.seriesStore) 1).Shared = none ∧
    (Adapter.constructAt (some Example.seriesStore) 1).NullValue = none ∧
    (Adapter.constructAt (some Example.seriesStore) 1).GetNumberOfInstances = 1 :=
  (C12_construct_single_instance Example.seriesStore 1 (by decide)).1
    (by
      rintro ⟨⟨v, hv, _⟩, _⟩
      exact absurd hv (by simp [groupValue, Example.seriesStore]))

/-- C13: for every (non-absent) store and selector i, the frame count fixed
at construction is, in per-frame mode (both group values found and valid at
instance max(i,0)), the integer value of NumberOfFrames read from the store
at instance max(i,0); in flat mode, 1 when i >= 0 and the store's instance
count otherwise. -/
theorem C13_frame_count (m : MetaData) (i : Int) :
    (BothGroupsValid m (max i 0) →
      (Adapter.ConstructionHelper (some m) i).PerFrame.isSome = true ∧
      (Adapter.ConstructionHelper (some m) i).GetNumberOfInstances =
        (m.Get (max i 0) DC.NumberOfFrames).AsInt) ∧
    (¬ BothGroupsValid m (max i 0) →
      (Adapter.ConstructionHelper (some m) i).PerFrame = none ∧
      (Adapter.ConstructionHelper (some m) i).GetNumberOfInstances =
        if 0 ≤ i then 1 else m.GetNumberOfInstances) := by
  constructor
  · intro h
    rw [ConstructionHelper_perFrame m i h]
    obtain ⟨_, ⟨p, hp, _⟩⟩ := h
    exact ⟨by simp [hp], rfl⟩
  · intro h
    rw [ConstructionHelper_flat m i h]
    refine ⟨rfl, ?_⟩
    unfold Adapter.GetNumberOfInstances
    by_cases hi : i < 0
    · have h2 : ¬ 0 ≤ i := by omega
      simp [hi, h2]
    · have h2 : 0 ≤ i := by omega
      simp [hi, h2]

/-- Witness of C13: the example store with both groups gives the frame
count 2 of its NumberOfFrames, and the series store without groups gives
its instance count 2 for the whole-record view. -/
theorem C13_frame_count_witness :
    ((Adapter.ConstructionHelper (some Example.store) (-1)).PerFrame.isSome = true ∧
      (Adapter.ConstructionHelper (some Example.store) (-1)).GetNumberOfInstances = 2) ∧
    ((Adapter.ConstructionHelper (some Example.seriesStore) (-1)).PerFrame = none ∧
      (Adapter.ConstructionHelper (some Example.seriesStore) (-1)).GetNumberOfInstances = 2) :=
  ⟨(C13_frame_count Example.store (-1)).1
      ⟨⟨Value.seq [Example.shItem0], rfl, rfl⟩,
       ⟨Value.seq [Example.pfItem0, Example.pfItem1], rfl, rfl⟩⟩,
   (C13_frame_count Example.seriesStore (-1)).2
      (by
        rintro ⟨⟨v, hv, _⟩, _⟩
        exact absurd hv (by simp [groupValue, Example.seriesStore]))⟩

/-- C14: for every adapter that construction, copying or assignment
produce, the copy-constructed adapter and an adapter assigned from it give
the same results as the original: `Get`, `Has`, `ResolvePrivateTag` and the
frame count agree for every frame index, tag, private tag and creator, the
owned `NullValue` of the copy is an invalid value exactly when the original
holds one, and the two copies agree with each other. -/
theorem C14_copy_observationally_equal (resolve : Item → Tag → String → Tag)
    (r t : Adapter) (hr : Produced r) (idx : Int) (tag ptag : Tag) (creator : String) :
    ((Adapter.copyConstruct r).Get idx tag = r.Get idx tag ∧
      (Adapter.copyConstruct r).Has tag = r.Has tag ∧
      (Adapter.copyConstruct r).ResolvePrivateTag resolve idx ptag creator =
        r.ResolvePrivateTag resolve idx ptag creator ∧
      (Adapter.copyConstruct r).GetNumberOfInstances = r.GetNumberOfInstances) ∧
    ((Adapter.operatorAssign t r false).Get idx tag = r.Get idx tag ∧
      (Adapter.operatorAssign t r false).Has tag = r.Has tag ∧
      (Adapter.operatorAssign t r false).ResolvePrivateTag resolve idx ptag creator =
        r.ResolvePrivateTag resolve idx ptag creator ∧
      (Adapter.operatorAssign t r false).GetNumberOfInstances = r.GetNumberOfInstances) ∧
    ((Adapter.copyConstruct r).Get idx tag = (Adapter.operatorAssign t r false).Get idx tag ∧
      (Adapter.copyConstruct r).ResolvePrivateTag resolve idx ptag creator =
        (Adapter.operatorAssign t r false).ResolvePrivateTag resolve idx ptag creator) ∧
    (r.NullValue.isSome = true → (Adapter.copyConstruct r).NullValue = some Value.invalid ∧
      r.NullValue = some Value.invalid) := by
  have hc := copyConstruct_eq_self r hr
  have ha := operatorAssign_eq_other t r hr
  refine ⟨?_, ?_, ?_, ?_⟩
  · rw [hc]; exact ⟨rfl, rfl, rfl, rfl⟩
  · rw [ha]; exact ⟨rfl, rfl, rfl, rfl⟩
  · rw [hc, ha]; exact ⟨rfl, rfl⟩
  · intro hsome
    rw [hc]
    rcases Produced_mode r hr with ⟨_, _, _, _, hn⟩ | ⟨_, _, hn⟩
    · exact ⟨hn, hn⟩
    · rw [hn] at hsome
      exact absurd hsome (by simp)

/-- Witness of C14: a copy of the adapter constructed over the example
store, and the flat series adapter after assignment from it, both give the
per-frame value of `tagA` at frame 1. -/
theorem C14_copy_observationally_equal_witness :
    (Adapter.copyConstruct (Adapter.construct (some Example.store))).Get 1 Example.tagA =
      some (Value.data [6]) ∧
    (Adapter.operatorAssign Example.seriesAdapter (Adapter.construct (some Example.store))
      false).Get 1 Example.tagA = some (Value.data [6]) :=
  ⟨((C14_copy_observationally_equal Example.resolve (Adapter.construct (some Example.store))
      Example.seriesAdapter (Produced.construct (some Example.store)) 1 Example.tagA
      Example.ptag "ACME").1.1).trans rfl,
   ((C14_copy_observationally_equal Example.resolve (Adapter.construct (some Example.store))
      Example.seriesAdapter (Produced.construct (some Example.store)) 1 Example.tagA
      Example.ptag "ACME").2.1.1).trans rfl⟩

/-- C15, as stated, fails: on the adapter constructed over a null store,
`Get`, `Has` and `ResolvePrivateTag` dereference the null store instead of
reporting absence. -/
theorem C15_counterexample :
    (Adapter.construct none).Meta = none ∧
    (Adapter.construct none).PerFrame = none ∧
    (Adapter.construct none).Get 0 Example.tagA = none ∧
    (Adapter.construct none).Get 0 Example.tagA ≠ some Value.invalid ∧
    (Adapter.construct none).Has Example.tagA = none ∧
    (Adapter.construct none).ResolvePrivateTag Example.resolve 0 Example.ptag "ACME" = none ∧
    (Adapter.construct none).ResolvePrivateTag Example.resolve 0 Example.ptag "ACME" ≠
      some Tag.unresolved := by
  refine ⟨rfl, rfl, rfl, ?_, rfl, rfl, ?_⟩
  · intro h
    have h2 : (none : Option Value) = some Value.invalid := h
    cases h2
  · intro h
    have h2 : (none : Option Tag) = some Tag.unresolved := h
    cases h2

/-- C15, amended: constructing an adapter over a null store is not an
error: it yields an adapter without store, without group references and
without owned invalid value, with the frame count 0 and the base instance
max(i,0); `Get`, `Has` and `ResolvePrivateTag` on it are not defined, they
dereference the null store. -/
theorem C15_construct_null_store (resolve : Item → Tag → String → Tag) (i idx : Int)
    (tag ptag : Tag) (creator : String) :
    Adapter.ConstructionHelper none i =
      { Meta := none, PerFrame := none, Shared := none, NullValue := none,
        NumberOfInstances := 0, MetaInstance := max i 0 } ∧
    (Adapter.ConstructionHelper none i).Get idx tag = none ∧
    (Adapter.ConstructionHelper none i).Has tag = none ∧
    (Adapter.ConstructionHelper none i).ResolvePrivateTag resolve idx ptag creator = none := by
  rw [ConstructionHelper_null]
  exact ⟨rfl, rfl, rfl, rfl⟩

/-- C16: every adapter that the constructors, the copy constructor and the
assignment operator produce is in exactly one of two modes: the PerFrame
reference, the Shared reference and the owned invalid value are all three
present, or all three are absent; hence `Get` of NumberOfFrames never
dereferences a missing `NullValue`. -/
theorem C16_mode_invariant (r : Adapter) (h : Produced r) :
    ((r.PerFrame.isSome = true ∧ r.Shared.isSome = true ∧ r.NullValue.isSome = true) ∨
      (r.PerFrame = none ∧ r.Shared = none ∧ r.NullValue = none)) ∧
    ¬ ((r.PerFrame.isSome = true ∧ r.Shared.isSome = true ∧ r.NullValue.isSome = true) ∧
      (r.PerFrame = none ∧ r.Shared = none ∧ r.NullValue = none)) ∧
    (r.PerFrame.isSome = true →
      ∀ idx : Int, r.Get idx DC.NumberOfFrames = some Value.invalid) := by
  refine ⟨?_, ?_, ?_⟩
  · rcases Produced_mode r h with ⟨p, q, hp, hq, hn⟩ | ⟨hp, hq, hn⟩
    · exact Or.inl ⟨by simp [hp], by simp [hq], by simp [hn]⟩
    · exact Or.inr ⟨hp, hq, hn⟩
  · rintro ⟨⟨hs, _, _⟩, ⟨hp, _, _⟩⟩
    rw [hp] at hs
    exact absurd hs (by simp)
  · intro hs idx
    rcases Produced_mode r h with ⟨p, q, hp, hq, hn⟩ | ⟨hp, hq, hn⟩
    · unfold Adapter.Get
      simp [hp, hn]
    · rw [hp] at hs
      exact absurd hs (by simp)

/-- Witness of C16: the adapter assigned from a copy of the adapter over
the example store is in per-frame mode and hides NumberOfFrames at frame 1. -/
theorem C16_mode_invariant_witness :
    (Adapter.operatorAssign (Adapter.construct none)
      (Adapter.copyConstruct (Adapter.constructAt (some Example.store) 0)) false).Get 1
        DC.NumberOfFrames = some Value.invalid :=
  (C16_mode_invariant _
    (Produced.assign _ _ (Produced.construct none)
      (Produced.copyConstruct _ (Produced.constructAt (some Example.store) 0)))).2.2 rfl 1

/-- C17 fails on the code: two adapters are constructed over two stores,
the second is assigned to the first and both are destroyed.  No adapter is
live at the end, and store 1 still has the reference count 2 instead of its
initial 1, because `operator=` does not release the store that it
overwrites. -/
theorem C17_assignment_leaks_reference :
    Example.twoStores.refCount 1 = 1 ∧
    (Example.twoStores.run Example.assignThenDestroy).map
      (fun s => (s.held, s.refCount 1, s.refCount 2, s.holders 1)) =
      some ([], 2, 1, 0) ∧
    ∀ final, Example.twoStores.run Example.assignThenDestroy = some final →
      ¬ Lifetime.Balanced Example.twoStores.refCount final := by
  refine ⟨rfl, by decide, ?_⟩
  intro final hrun hbal
  have hmap : (Example.twoStores.run Example.assignThenDestroy).map
      (fun s => (s.refCount 1, s.holders 1)) = some (2, 0) := by decide
  rw [hrun] at hmap
  simp only [Option.map_some', Option.some.injEq, Prod.mk.injEq] at hmap
  have h1 := hbal 1
  rw [hmap.1, hmap.2] at h1
  exact absurd h1 (by decide)

/-- C18, as stated, fails when a group value is valid without being a
sequence: construction enters per-frame mode on `IsValid` alone, the index 0
passes the test `f < GetNumberOfValues()` for the one-valued PerFrame value,
`GetSequenceData()` is null, and `Get` and `ResolvePrivateTag` index the
null item array. -/
theorem C18_counterexample :
    Produced (Adapter.construct (some Example.dataStore)) ∧
    (Adapter.construct (some Example.dataStore)).PerFrame = some (Value.data [1]) ∧
    (Adapter.construct (some Example.dataStore)).Shared =
      some (Value.seq [Example.shItem0]) ∧
    (Adapter.construct (some Example.dataStore)).NullValue = some Value.invalid ∧
    (Value.data [1]).IsValid = true ∧
    toUnsigned 0 < (Value.data [1]).GetNumberOfValues ∧
    (Value.data [1]).GetSequenceData = none ∧
    Get.searchGroup (Adapter.construct (some Example.dataStore)).PerFrame (toUnsigned 0)
      Example.tagA none = none ∧
    (Adapter.construct (some Example.dataStore)).Get 0 Example.tagA = none ∧
    (Adapter.construct (some Example.dataStore)).ResolvePrivateTag Example.resolve 0
      Example.ptag "ACME" = none := by
  refine ⟨Produced.construct _, rfl, rfl, rfl, rfl, by decide, rfl, rfl, rfl, rfl⟩

/-- C18, amended: in per-frame mode with both group values being sequences
of Items, for every frame index, the searches of `Get` and
`ResolvePrivateTag` index the per-frame and shared item arrays within
bounds (each pass of the loops and each call gives a result).  A negative
32-bit index becomes an unsigned number of at least 2^31; when the unsigned
index is not below the number of per-frame items the per-frame source is
skipped, the result is the search over shared item 0 and the store alone and
is the same for all such indices; an empty shared sequence is skipped
likewise. -/
theorem C18_index_in_bounds (resolve : Item → Tag → String → Tag) (a : Adapter)
    (m : MetaData) (pf sh : List Item) (h : PerFrameMode a m pf sh) (idx : Int)
    (tag ptag : Tag) (creator : String) :
    ((∀ pv, ∃ o, Get.searchGroup a.PerFrame (toUnsigned idx) tag pv = some o) ∧
      (∀ pv, ∃ o, Get.searchGroup a.Shared 0 tag pv = some o) ∧
      (∀ t0, ∃ o, ResolvePrivateTag.searchGroup resolve a.PerFrame (toUnsigned idx)
        ptag creator t0 = some o) ∧
      (∀ t0, ∃ o, ResolvePrivateTag.searchGroup resolve a.Shared 0 ptag creator t0 = some o) ∧
      (∃ v, a.Get idx tag = some v) ∧
      (∃ t, a.ResolvePrivateTag resolve idx ptag creator = some t)) ∧
    (-2147483648 ≤ idx → idx < 0 →
      toUnsigned idx = (idx + 4294967296).toNat ∧ 2147483648 ≤ toUnsigned idx) ∧
    (pf.length ≤ toUnsigned idx →
      (tag ≠ DC.NumberOfFrames →
        a.Get idx tag =
          some (Spec.getPrecedence none sh[0]? (m.Get a.MetaInstance tag) tag)) ∧
      a.ResolvePrivateTag resolve idx ptag creator =
        some (Spec.resolvePrecedence resolve none sh[0]?
          (m.ResolvePrivateTag a.MetaInstance ptag creator) ptag creator) ∧
      ∀ idx2 : Int, pf.length ≤ toUnsigned idx2 →
        a.Get idx2 tag = a.Get idx tag ∧
        a.ResolvePrivateTag resolve idx2 ptag creator =
          a.ResolvePrivateTag resolve idx ptag creator) ∧
    (sh = [] →
      (tag ≠ DC.NumberOfFrames →
        a.Get idx tag =
          some (Spec.getPrecedence (perFrameItem pf idx) none (m.Get a.MetaInstance tag) tag)) ∧
      a.ResolvePrivateTag resolve idx ptag creator =
        some (Spec.resolvePrecedence resolve (perFrameItem pf idx) none
          (m.ResolvePrivateTag a.MetaInstance ptag creator) ptag creator)) := by
  refine ⟨⟨?_, ?_, ?_, ?_, ?_, ?_⟩, ?_, ?_, ?_⟩
  · intro pv
    rw [h.hPerFrame, get_group_seq]
    exact ⟨_, rfl⟩
  · intro pv
    rw [h.hShared, get_group_seq]
    exact ⟨_, rfl⟩
  · intro t0
    rw [h.hPerFrame, resolve_group_seq]
    exact ⟨_, rfl⟩
  · intro t0
    rw [h.hShared, resolve_group_seq]
    exact ⟨_, rfl⟩
  · exact Get_defined a m pf sh h idx tag
  · exact ⟨_, ResolvePrivateTag_eq_resolvePrecedence resolve a m pf sh h idx ptag creator⟩
  · exact toUnsigned_of_neg idx
  · intro hout
    refine ⟨?_, ResolvePrivateTag_of_skipped resolve a m pf sh h idx ptag creator hout, ?_⟩
    · intro ht
      rw [Get_of_skipped a m pf sh h idx tag hout, if_neg ht]
    · intro idx2 hout2
      rw [Get_of_skipped a m pf sh h idx tag hout, Get_of_skipped a m pf sh h idx2 tag hout2,
        ResolvePrivateTag_of_skipped resolve a m pf sh h idx ptag creator hout,
        ResolvePrivateTag_of_skipped resolve a m pf sh h idx2 ptag creator hout2]
      exact ⟨rfl, rfl⟩
  · intro hsh
    subst hsh
    refine ⟨?_, ?_⟩
    · intro ht
      rw [Get_eq_getPrecedence a m pf [] h idx tag ht]
      rfl
    · rw [ResolvePrivateTag_eq_resolvePrecedence resolve a m pf [] h idx ptag creator]
      rfl

/-- Witness of C18: in the example with two per-frame items, the frame
indices -1 and 2 are skipped and give the shared item's value of `tagA`. -/
theorem C18_index_in_bounds_witness :
    Example.adapter.Get (-1) Example.tagA = some (Value.data [4]) ∧
    Example.adapter.Get 2 Example.tagA = Example.adapter.Get (-1) Example.tagA :=
  ⟨(((C18_index_in_bounds Example.resolve Example.adapter Example.store
      [Example.pfItem0, Example.pfItem1] [Example.shItem0] ⟨rfl, rfl, rfl, rfl⟩ (-1)
      Example.tagA Example.ptag "ACME").2.2.1 (by decide)).1 (by decide)).trans rfl,
   (((C18_index_in_bounds Example.resolve Example.adapter Example.store
      [Example.pfItem0, Example.pfItem1] [Example.shItem0] ⟨rfl, rfl, rfl, rfl⟩ (-1)
      Example.tagA Example.ptag "ACME").2.2.1 (by decide)).2.2 2 (by decide)).1⟩

/-- C19: in per-frame mode, for every frame index, private tag and creator,
if `ResolvePrivateTag` returns a tag that is neither the unresolved sentinel
nor NumberOfFrames, and the store's own resolution at the base instance is
the sentinel, then `Get` of that tag at the same frame is a valid value. -/
theorem C19_resolved_tag_has_value (resolve : Item → Tag → String → Tag) (a : Adapter)
    (m : MetaData) (pf sh : List Item) (h : PerFrameMode a m pf sh) (idx : Int)
    (ptag : Tag) (creator : String) (t : Tag)
    (hres : a.ResolvePrivateTag resolve idx ptag creator = some t)
    (ht : t ≠ Tag.unresolved) (hnof : t ≠ DC.NumberOfFrames)
    (hbase : m.ResolvePrivateTag a.MetaInstance ptag creator = Tag.unresolved) :
    ∃ v, a.Get idx t = some v ∧ v.IsValid = true := by
  rw [ResolvePrivateTag_eq_resolvePrecedence resolve a m pf sh h idx ptag creator] at hres
  have hres2 := Option.some.inj hres
  refine ⟨_, Get_eq_getPrecedence a m pf sh h idx t hnof, ?_⟩
  rw [getPrecedence_isValid]
  have hne : Spec.resolvePrecedence resolve pf[toUnsigned idx]? sh[0]?
      (m.ResolvePrivateTag a.MetaInstance ptag creator) ptag creator ≠ Tag.unresolved := by
    rw [hres2]; exact ht
  have hmem := firstResolved_mem _ hne
  have hfirst : firstResolved
      [directResolved resolve pf[toUnsigned idx]? ptag creator,
       nestedResolved resolve true pf[toUnsigned idx]? ptag creator,
       directResolved resolve sh[0]? ptag creator,
       nestedResolved resolve true sh[0]? ptag creator,
       m.ResolvePrivateTag a.MetaInstance ptag creator,
       nestedResolved resolve false pf[toUnsigned idx]? ptag creator,
       nestedResolved resolve false sh[0]? ptag creator] = t := hres2
  have hmem2 := hmem
  rw [hfirst] at hmem2
  simp only [List.mem_cons, List.mem_singleton, List.not_mem_nil, or_false] at hmem2
  rcases hmem2 with h1 | h1 | h1 | h1 | h1 | h1 | h1
  · have hv := directHit_of_directResolved resolve pf[toUnsigned idx]? ptag creator
      (by rw [← h1]; exact ht)
    rw [← h1] at hv
    exact Or.inl hv
  · obtain ⟨e, he, hv⟩ := nestedValue_of_nestedResolved resolve true pf[toUnsigned idx]?
      ptag creator (by rw [← h1]; exact ht)
    rw [← h1] at hv
    exact Or.inr (Or.inr (Or.inl ⟨e, he, hv⟩))
  · have hv := directHit_of_directResolved resolve sh[0]? ptag creator
      (by rw [← h1]; exact ht)
    rw [← h1] at hv
    exact Or.inr (Or.inl hv)
  · obtain ⟨e, he, hv⟩ := nestedValue_of_nestedResolved resolve true sh[0]?
      ptag creator (by rw [← h1]; exact ht)
    rw [← h1] at hv
    exact Or.inr (Or.inr (Or.inr (Or.inl ⟨e, he, hv⟩)))
  · rw [hbase] at h1
    exact absurd h1 ht
  · obtain ⟨e, he, hv⟩ := nestedValue_of_nestedResolved resolve false pf[toUnsigned idx]?
      ptag creator (by rw [← h1]; exact ht)
    rw [← h1] at hv
    exact Or.inr (Or.inr (Or.inl ⟨e, he, hv⟩))
  · obtain ⟨e, he, hv⟩ := nestedValue_of_nestedResolved resolve false sh[0]?
      ptag creator (by rw [← h1]; exact ht)
    rw [← h1] at hv
    exact Or.inr (Or.inr (Or.inr (Or.inl ⟨e, he, hv⟩)))

/-- Witness of C19: in the example the creator "ACME" resolves `ptag` at
frame 0 to (2005,1401), and `Get` of that tag at frame 0 is valid. -/
theorem C19_resolved_tag_has_value_witness :
    ∃ v, Example.adapter.Get 0 Example.resolvedTag = some v ∧ v.IsValid = true :=
  C19_resolved_tag_has_value Example.resolve Example.adapter Example.store
    [Example.pfItem0, Example.pfItem1] [Example.shItem0] ⟨rfl, rfl, rfl, rfl⟩ 0
    Example.ptag "ACME" Example.resolvedTag (by decide) (by decide) (by decide) rfl

end vtkDICOM
